import Mathlib

/-!
Verification development for the market_pulse ingestion pipeline
(planner lambda and Alpha Vantage worker lambda).

Python strings are embedded as lists of characters (`List Char`); Python
string comparison is code-point lexicographic, embedded by `pyStrLt`.
Machine integers appearing in the source are small calendar quantities,
embedded as `Nat` / `Int` directly.
-/

namespace MarketPulse

/-- Characters stripped by Python str.strip for the ASCII range
(the source only ever strips ASCII data; the additional Unicode
whitespace Python would strip never occurs in the modelled inputs). -/
def isPySpace (c : Char) : Bool :=
  c == ' ' || c == '\t' || c == '\n' || c == '\r' ||
  c == '\x0b' || c == '\x0c'

/-- Embeds Python str.strip(): drop whitespace on both ends. -/
def stripWs (l : List Char) : List Char :=
  ((l.dropWhile isPySpace).reverse.dropWhile isPySpace).reverse

/-- Embeds Python string comparison a < b: code-point lexicographic,
with a strict prefix comparing smaller. -/
def pyStrLt : List Char → List Char → Bool
  | [], [] => false
  | [], _ :: _ => true
  | _ :: _, [] => false
  | a :: s, b :: t => if a = b then pyStrLt s t else decide (a < b)

/-- Embeds Python min(a, b) on strings. -/
def pyMin (a b : List Char) : List Char := if pyStrLt b a then b else a

/-- Embeds Python max(a, b) on strings. -/
def pyMax (a b : List Char) : List Char := if pyStrLt a b then b else a

/-- Decimal digit test, as in the strptime regex fragment for %Y. -/
def isDigitC (c : Char) : Bool := decide ('0' ≤ c) && decide (c ≤ '9')

/-- Month part of the strptime %m regex, one-digit alternative [1-9]. -/
def monthOneDigit (c : Char) : Bool := decide ('1' ≤ c) && decide (c ≤ '9')

/-- Month part of the strptime %m regex, two-digit alternatives
1[0-2] and 0[1-9]. -/
def monthTwoDigits (c1 c2 : Char) : Bool :=
  (c1 == '1' && (decide ('0' ≤ c2) && decide (c2 ≤ '2'))) ||
  (c1 == '0' && (decide ('1' ≤ c2) && decide (c2 ≤ '9')))

/-- Full-match semantics of the strptime %m regex 1[0-2]|0[1-9]|[1-9]
against the remainder of the input: exactly one or two characters, and a
two-character remainder must be consumed entirely by one alternative
(strptime rejects the input when unconverted data remains). -/
def monthPartOk : List Char → Bool
  | [c] => monthOneDigit c
  | [c1, c2] => monthTwoDigits c1 c2
  | _ => false

/-- The %Y regex is exactly four digits; the subsequent datetime
construction additionally rejects year 0000 (year out of range). -/
def yearOkChars (a b c d : Char) : Bool :=
  isDigitC a && isDigitC b && isDigitC c && isDigitC d &&
  !(a == '0' && b == '0' && c == '0' && d == '0')

/-- Embeds datetime.strptime(value, "%Y-%m") succeeding on an
already-stripped character list: four year digits (year at least 1),
a hyphen, then the %m month part consuming the rest. -/
def isValidYMChars : List Char → Bool
  | a :: b :: c :: d :: h :: rest =>
      yearOkChars a b c d && h == '-' && monthPartOk rest
  | _ => false

/-- Embeds the planner's _is_valid_year_month and the worker's identical
is_valid_year_month: strip, then try strptime with format %Y-%m. -/
def is_valid_year_month (l : List Char) : Bool :=
  isValidYMChars (stripWs l)

/-- Canonical YYYY-MM form as the spec describes it: a four-digit year
of a real calendar (so not 0000), a hyphen, and a zero-padded two-digit
month in [1,12]. Spec-side definition used to compare the source's
validation against the canonical form. -/
def isCanonicalYMChars : List Char → Bool
  | [a, b, c, d, h, e, f] =>
      yearOkChars a b c d && h == '-' && monthTwoDigits e f
  | _ => false

/-- Non-canonical form also accepted by strptime: four-digit year,
hyphen, single-digit month 1..9. -/
def isShortMonthYMChars : List Char → Bool
  | [a, b, c, d, h, e] =>
      yearOkChars a b c d && h == '-' && monthOneDigit e
  | _ => false

/-- Decimal digit character for a digit value 0..9, as rendered by
Python formatted printing. -/
def digitChar : Nat → Char
  | 0 => '0' | 1 => '1' | 2 => '2' | 3 => '3' | 4 => '4'
  | 5 => '5' | 6 => '6' | 7 => '7' | 8 => '8' | _ => '9'

/-- Embeds the Python format spec 02d for values up to 99 (the source
only formats month numbers 1..12 with it). -/
def pad2 (n : Nat) : List Char := [digitChar (n / 10 % 10), digitChar (n % 10)]

/-- Embeds the Python format spec 04d for values up to 9999 (the source
only formats datetime years, which lie in 1..9999). -/
def pad4 (n : Nat) : List Char :=
  [digitChar (n / 1000 % 10), digitChar (n / 100 % 10),
   digitChar (n / 10 % 10), digitChar (n % 10)]

/-- Canonical rendering f-string YYYY-MM used throughout the source
(planner default range, worker month_range). -/
def ymChars (y m : Nat) : List Char := pad4 y ++ '-' :: pad2 m

/-- Unpadded decimal rendering of a nonnegative int, as Python str(n);
structural fuel (the value itself suffices since n / 10 decreases). -/
def pyStrNatAux : Nat → Nat → List Char
  | 0, n => [digitChar n]
  | fuel + 1, n =>
      if n < 10 then [digitChar n]
      else pyStrNatAux fuel (n / 10) ++ [digitChar (n % 10)]

/-- Embeds Python str(n) for a natural number n. -/
def pyStrNat (n : Nat) : List Char := pyStrNatAux n n

/-! ## Planner (src/lambdas/planner/handler.py) -/

/-- Failure modes of the planner handler: the two user-input ValueErrors
of lines 71-75, the two internal-consistency ValueErrors of lines 87-92,
and the ValueError Python range() raises for a zero chunk step. -/
inductive PlannerError where
  | invalidFormat
  | invalidOrder
  | glueStartNotJanuary
  | glueDoesNotCover
  | rangeZeroStep
  deriving DecidableEq, Repr

/-- Embeds planner handler lines 71-75: format validation of both bounds
first, then the string-comparison order check. -/
def plannerValidate (s e : List Char) : Except PlannerError Unit :=
  if !(is_valid_year_month s && is_valid_year_month e) then
    .error .invalidFormat
  else if pyStrLt e s then
    .error .invalidOrder
  else
    .ok ()

/-- Embeds _prev_month: previous calendar month with January wrapping to
December of the previous year. -/
def prev_month (year month : Nat) : Nat × Nat :=
  if month = 1 then (year - 1, 12) else (year, month - 1)

/-- Trigger timestamp as the planner sees it (datetime in UTC);
datetime invariants (year in 1..9999, month in 1..12) appear as
hypotheses where needed. -/
structure PyDateTime where
  year : Nat
  month : Nat
  day : Nat
  hour : Nat
  minute : Nat
  second : Nat
  deriving DecidableEq, Repr

/-- Embeds planner handler lines 66-69: default ingest range, previous
month to current month of the trigger time, rendered with 04d-02d. -/
def defaultIngestRange (now : PyDateTime) : List Char × List Char :=
  let p := prev_month now.year now.month
  (ymChars p.1 p.2, ymChars now.year now.month)

/-- First four characters of a validated bound converted to a number,
embedding int(ingest_year_month_end[:4]); on a validated bound the slice
is four decimal digits. -/
def yearOf4 : List Char → Nat
  | a :: b :: c :: d :: _ =>
      (a.toNat - 48) * 1000 + (b.toNat - 48) * 100 +
      (c.toNat - 48) * 10 + (d.toNat - 48)
  | _ => 0

/-- Ranges computed by the planner before batching. -/
structure ResolvedRanges where
  ingestStart : List Char
  ingestEnd : List Char
  glueStart : List Char
  glueEnd : List Char
  deriving DecidableEq, Repr

/-- Embeds planner handler lines 58-92: take the (possibly missing)
explicit bounds, strip them, fall back to the default range when either
is empty, validate format then order, derive the Glue (coverage) range
as str(end_year - 1) ++ "-01", and run the two defensive coverage
checks (month slice [5:7] must be "01"; the Glue range must contain the
ingest range under string comparison). -/
def plannerResolveRange (rawStart rawEnd : Option (List Char))
    (now : PyDateTime) : Except PlannerError ResolvedRanges :=
  let s0 := stripWs (rawStart.getD [])
  let e0 := stripWs (rawEnd.getD [])
  let se : List Char × List Char :=
    if s0.isEmpty || e0.isEmpty then defaultIngestRange now else (s0, e0)
  match plannerValidate se.1 se.2 with
  | .error err => .error err
  | .ok _ =>
    let ingestStart := se.1
    let ingestEnd := se.2
    let endYear := yearOf4 ingestEnd
    let glueStart := pyStrNat (endYear - 1) ++ '-' :: '0' :: '1' :: []
    let glueEnd := ingestEnd
    if !((glueStart.drop 5).take 2 == ['0', '1']) then
      .error .glueStartNotJanuary
    else if pyStrLt ingestStart glueStart || pyStrLt glueEnd ingestEnd then
      .error .glueDoesNotCover
    else
      .ok ⟨ingestStart, ingestEnd, glueStart, glueEnd⟩

/-- Fuel-driven chunking; for a positive size n, chunkFuel (length l) l n
produces the slices lst[0:n], lst[n:2n], ... exactly as the chunk
generator does (lst[i:i+n] is take n (drop i lst), and stepping i by n
is the take/drop recursion below). -/
def chunkFuel : Nat → List (List Char) → Nat → List (List (List Char))
  | 0, _, _ => []
  | fuel + 1, l, n =>
      if l.isEmpty then [] else l.take n :: chunkFuel fuel (l.drop n) n

/-- Embeds the chunk generator as driven by the handler loop: Python
range(0, len(lst), n) raises ValueError for n = 0, is empty for n < 0
(so the loop body never runs and no batch is produced), and for n > 0
yields the successive n-sized slices. -/
def pyChunk (l : List (List Char)) (n : Int) :
    Except PlannerError (List (List (List Char))) :=
  if n = 0 then .error .rangeZeroStep
  else if n < 0 then .ok []
  else .ok (chunkFuel l.length l n.toNat)

/-- Embeds planner handler lines 102-112, the batch construction: the
enumerate loop pairs each chunk with its index as batch_id (the
symbols_s3_uri and ingest-range fields carried in each descriptor are
the same for every batch and are left implicit here). -/
def planBatches (symbols : List (List Char)) (batch_size : Int) :
    Except PlannerError (List (Nat × List (List Char))) :=
  match pyChunk symbols batch_size with
  | .error e => .error e
  | .ok chunks => .ok chunks.enum

/-! ## RetryingHttpClient
(src/lambdas/worker/alpha_vantage_client.py, _request_with_retries) -/

/-- Source constant RETRIES, the additional retry attempts. -/
def RETRIES : Nat := 3

/-- Source constant RETRIABLE_STATUS as a predicate. -/
def retriableStatus (s : Nat) : Bool :=
  s == 429 || s == 500 || s == 502 || s == 503 || s == 504

/-- Outcome of one sess.request call: a raised requests.RequestException
or a response carrying a status code. -/
inductive AttemptOutcome (α : Type) where
  | exn
  | resp (r : α)
  deriving DecidableEq, Repr

/-- What _request_with_retries does in the end: re-raise the last
transport exception, or return a response. -/
inductive RetryResult (α : Type) where
  | raised
  | returned (r : α)
  deriving DecidableEq, Repr

/-- Loop body of _request_with_retries for attempt numbers attempt to
attempts: 2xx returns immediately; a retriable status (or a transport
exception) with attempts remaining consumes the next outcome; otherwise
the response is returned (or the exception re-raised).  The outcome list
supplies one entry per attempt actually issued; none means the loop
demanded an attempt beyond the supplied sequence.  The returned Nat is
the number of attempts issued. -/
def retryLoop (statusOf : α → Nat) :
    List (AttemptOutcome α) → Nat → Nat → Option (RetryResult α × Nat)
  | [], _, _ => none
  | o :: rest, attempt, attempts =>
      match o with
      | .exn =>
          if attempt < attempts then retryLoop statusOf rest (attempt + 1) attempts
          else some (.raised, attempt)
      | .resp r =>
          if 200 ≤ statusOf r ∧ statusOf r < 300 then
            some (.returned r, attempt)
          else if retriableStatus (statusOf r) ∧ attempt < attempts then
            retryLoop statusOf rest (attempt + 1) attempts
          else
            some (.returned r, attempt)

/-- Embeds _request_with_retries: attempts = 1 + RETRIES, loop from
attempt 1. -/
def request_with_retries (statusOf : α → Nat)
    (outcomes : List (AttemptOutcome α)) : Option (RetryResult α × Nat) :=
  retryLoop statusOf outcomes 1 (1 + RETRIES)

/-! ## MarketDataGateway
(src/lambdas/worker/alpha_vantage_client.py, get_symbol_monthly_data,
symbol_search, _fetch_monthly_adjusted, save_bronze_raw) -/

/-- Keys of the parsed JSON body the gateway inspects: presence and value
of the Note field and of the Error Message field; the rest of the payload
is opaque to the validation pipeline. -/
structure ApiBody where
  note : Option (List Char)
  errorMessage : Option (List Char)
  deriving DecidableEq, Repr

/-- Result of response.json(): ValueError or a parsed object. -/
inductive BodyParse where
  | failed
  | parsed (b : ApiBody)
  deriving DecidableEq, Repr

/-- Response as the gateway sees it after the retry helper returned it:
status code, raw Content-Type header value (empty list when the header is
absent, as the source's `or ""`), and the parse outcome of the body. -/
structure UpResponse where
  status : Nat
  contentType : List Char
  body : BodyParse
  deriving DecidableEq, Repr

/-- Containment of a character sequence at the head of another. -/
def seqHere : List Char → List Char → Bool
  | [], _ => true
  | _ :: _, [] => false
  | a :: s, b :: t => a == b && seqHere s t

/-- Embeds the Python substring test (needle in haystack). -/
def containsSeq (needle : List Char) : List Char → Bool
  | [] => seqHere needle []
  | c :: t => seqHere needle (c :: t) || containsSeq needle t

/-- Embeds str.lower() for the ASCII range (header values here are
ASCII). -/
def pyLower (l : List Char) : List Char :=
  l.map fun c =>
    if 'A' ≤ c ∧ c ≤ 'Z' then Char.ofNat (c.toNat + 32) else c

/-- Content-Type acceptance: "application/json" in header.lower(). -/
def contentTypeIsJson (ct : List Char) : Bool :=
  containsSeq "application/json".data (pyLower ct)

/-- Shape of the dicts the gateway returns: an ok flag and the error
message when not ok (the data payload is opaque and omitted). -/
structure PyResult where
  ok : Bool
  error : Option (List Char)
  deriving DecidableEq, Repr

/-- Embeds the validation pipeline of get_symbol_monthly_data
(lines 189-251, persistence aside): transport failure after retries,
then non-2xx, then content type, then JSON parse, then Note, then
Error Message, else ok. -/
def get_symbol_monthly_data_validate (rr : RetryResult UpResponse) : PyResult :=
  match rr with
  | .raised => ⟨false, some "Failed to fetch data from Alpha Vantage API.".data⟩
  | .returned r =>
    if ¬(200 ≤ r.status ∧ r.status < 300) then
      ⟨false, some "Alpha Vantage API returned HTTP status.".data⟩
    else if !contentTypeIsJson r.contentType then
      ⟨false, some "Unexpected response format.".data⟩
    else
      match r.body with
      | .failed => ⟨false, some "Invalid JSON from Alpha Vantage API.".data⟩
      | .parsed b =>
        match b.note with
        | some n => ⟨false, some n⟩
        | none =>
          match b.errorMessage with
          | some m => ⟨false, some m⟩
          | none => ⟨true, none⟩

/-- Embeds the validation pipeline of symbol_search (lines 272-328,
persistence aside): same order as get_symbol_monthly_data, Note checked
before Error Message. -/
def symbol_search_validate (rr : RetryResult UpResponse) : PyResult :=
  match rr with
  | .raised => ⟨false, some "Network error during symbol search.".data⟩
  | .returned r =>
    if ¬(200 ≤ r.status ∧ r.status < 300) then
      ⟨false, some "HTTP status".data⟩
    else if !contentTypeIsJson r.contentType then
      ⟨false, some "Unexpected response format.".data⟩
    else
      match r.body with
      | .failed => ⟨false, some "Invalid JSON from Alpha Vantage API.".data⟩
      | .parsed b =>
        match b.note with
        | some n => ⟨false, some n⟩
        | none =>
          match b.errorMessage with
          | some m => ⟨false, some m⟩
          | none => ⟨true, none⟩

/-- Embeds the validation pipeline of the _fetch_monthly_adjusted helper
(lines 346-388): same early steps, but Error Message is checked before
Note (lines 380-386). -/
def fetch_monthly_adjusted_validate (rr : RetryResult UpResponse) : PyResult :=
  match rr with
  | .raised => ⟨false, some "Failed to fetch monthly adjusted data.".data⟩
  | .returned r =>
    if ¬(200 ≤ r.status ∧ r.status < 300) then
      ⟨false, some "HTTP status".data⟩
    else if !contentTypeIsJson r.contentType then
      ⟨false, some "Unexpected response format.".data⟩
    else
      match r.body with
      | .failed => ⟨false, some "Invalid JSON from Alpha Vantage API.".data⟩
      | .parsed b =>
        match b.errorMessage with
        | some m => ⟨false, some m⟩
        | none =>
          match b.note with
          | some n => ⟨false, some n⟩
          | none => ⟨true, none⟩

/-- Result dict of save_bronze_raw. -/
structure SaveResult where
  ok : Bool
  localPath : Option (List Char)
  s3Uri : Option (List Char)
  error : Option (List Char)
  deriving DecidableEq, Repr

/-- Embeds save_bronze_raw (lines 114-163): starts with ok = True; a
local write (when enabled) or an S3 upload (when a config is given) that
raises flips ok to False and records a message, exceptions are swallowed.
The filesystem and S3 effects are abstracted as Except-valued outcomes
(ok carries the path or URI, error carries the exception text). -/
def save_bronze_raw (saveLocal : Bool)
    (localOutcome : Except (List Char) (List Char))
    (s3Enabled : Bool)
    (s3Outcome : Except (List Char) (List Char)) : SaveResult :=
  let r0 : SaveResult := ⟨true, none, none, none⟩
  let r1 :=
    if saveLocal then
      match localOutcome with
      | .ok p => { r0 with localPath := some p }
      | .error e =>
          { r0 with ok := false, error := some ("local save failed: ".data ++ e) }
    else r0
  if s3Enabled then
    match s3Outcome with
    | .ok uri => { r1 with s3Uri := some uri }
    | .error e =>
        { r1 with
          ok := false
          error :=
            match r1.error with
            | some prev => some (prev ++ " | s3 save failed: ".data ++ e)
            | none => some ("s3 save failed: ".data ++ e) }
  else r1

/-- Embeds get_symbol_monthly_data with its persistence step (lines
245-251): when save is requested and validation succeeded, it calls
save_bronze_raw with save_local=False and an S3 config, ignores the
returned status entirely, and reports ok regardless. -/
def get_symbol_monthly_data_run (rr : RetryResult UpResponse) (save : Bool)
    (s3Outcome : Except (List Char) (List Char)) : PyResult :=
  let v := get_symbol_monthly_data_validate rr
  if v.ok then
    if save then
      let _raw := save_bronze_raw false (.ok []) true s3Outcome
      ⟨true, none⟩
    else ⟨true, none⟩
  else v

/-! ## IngestionWorker (src/lamdas/worker/ingestion_alpha_vantage.py) -/

/-- Embeds int() applied to a string of decimal digits; int() tolerates
surrounding whitespace, hence the strip.  Only reached on the components
of a validated YYYY-MM value, which are digit strings. -/
def charsToNat (l : List Char) : Nat :=
  (stripWs l).foldl (fun a c => a * 10 + (c.toNat - 48)) 0

/-- Embeds str.split("-"): split at every hyphen. -/
def splitDashAux (cur : List Char) : List Char → List (List Char)
  | [] => [cur.reverse]
  | c :: t =>
      if c == '-' then cur.reverse :: splitDashAux [] t
      else splitDashAux (c :: cur) t

/-- Splits a string at hyphens, as s.split("-") does. -/
def splitDash (l : List Char) : List (List Char) := splitDashAux [] l

/-- Embeds map(int, s.split("-")) unpacked into (year, month); a
validated YYYY-MM value has exactly one hyphen (the (0, 0) fallback is
unreachable there). -/
def ymParse (l : List Char) : Nat × Nat :=
  match splitDash l with
  | [ys, ms] => (charsToNat ys, charsToNat ms)
  | _ => (0, 0)

/-- Loop of month_range: while (year, month) has not passed the end
bound, yield the 04d-02d rendering and advance by one month, rolling
over after December.  Fuel bounds the iteration count; month_range
always supplies enough. -/
def monthRangeAux : Nat → Nat → Nat → Nat → Nat → List (List Char)
  | 0, _, _, _, _ => []
  | fuel + 1, y, m, ey, em =>
      if y < ey ∨ (y = ey ∧ m ≤ em) then
        ymChars y m ::
          (if m + 1 > 12 then monthRangeAux fuel (y + 1) 1 ey em
           else monthRangeAux fuel y (m + 1) ey em)
      else []

/-- Embeds month_range (lines 27-37): ascending inclusive sequence of
months from the start bound to the end bound. -/
def month_range (s e : List Char) : List (List Char) :=
  let p := ymParse s
  let q := ymParse e
  monthRangeAux (12 * q.1 + q.2 + 13) p.1 p.2 q.1 q.2

/-- One row of the symbol universe table: the symbol column and the
start_date column (already passed through str(), as the source does). -/
structure URow where
  symbol : List Char
  start_date : List Char
  deriving DecidableEq, Repr

/-- Pre-fetch validation failures of fetch_and_store_alpha_vantage_data
(lines 67-76); the schema check of line 89 concerns the tabular layout,
which the row representation already assumes. -/
inductive WorkerError where
  | invalidStart
  | invalidEnd
  | invalidOrder
  deriving DecidableEq, Repr

/-- Statistics accumulated by the worker loop (lines 106-112): the
failure set holds (symbol, month) pairs. -/
structure WStats where
  skippedSymbols : Nat
  totalRequests : Nat
  successRequests : Nat
  errorRequests : Nat
  symbolsWithErrors : Finset (List Char)
  failedPairs : Finset (List Char × List Char)

/-- All-zero, all-empty initial statistics. -/
def initWStats : WStats := ⟨0, 0, 0, 0, ∅, ∅⟩

/-- Embeds the per-month body (lines 140-159).  The gateway call
get_symbol_monthly_data(symbol, month, save=True) is abstracted by the
fetchOk oracle giving the ok field of its result for that pair.  An
error increments the error counter, records the symbol and adds the
pair to the failure set; a success increments the success counter and
removes the pair from the failure set when present. -/
def stepMonth (fetchOk : List Char → List Char → Bool)
    (symbol month : List Char) (st : WStats) : WStats :=
  let st1 := { st with totalRequests := st.totalRequests + 1 }
  if !(fetchOk symbol month) then
    { st1 with
      errorRequests := st1.errorRequests + 1
      symbolsWithErrors := insert symbol st1.symbolsWithErrors
      failedPairs := insert (symbol, month) st1.failedPairs }
  else
    { st1 with
      successRequests := st1.successRequests + 1
      failedPairs :=
        if (symbol, month) ∈ st1.failedPairs then
          st1.failedPairs.erase (symbol, month)
        else st1.failedPairs }

/-- Embeds the per-symbol body (lines 120-159): strip the start_date,
skip the symbol when it is not a valid YYYY-MM or is later than the
clamped end (string comparison), otherwise fetch every month from
max(range start, symbol start) to the clamped end. -/
def stepSymbol (fetchOk : List Char → List Char → Bool)
    (startYM maxEnd : List Char) (st : WStats) (row : URow) : WStats :=
  let firstYM := stripWs row.start_date
  if !is_valid_year_month firstYM then
    { st with skippedSymbols := st.skippedSymbols + 1 }
  else if pyStrLt maxEnd firstYM then
    { st with skippedSymbols := st.skippedSymbols + 1 }
  else
    let effStart := pyMax startYM firstYM
    (month_range effStart maxEnd).foldl
      (fun s mo => stepMonth fetchOk row.symbol mo s) st

/-- Embeds the subset filter df[df.symbol.isin(symbols_subset)]
(lines 93-95). -/
def applySubset (rows : List URow) : Option (List (List Char)) → List URow
  | none => rows
  | some ss => rows.filter fun r => ss.contains r.symbol

/-- Embeds df.head(limit) (lines 97-99) for a nonnegative limit. -/
def applyLimit (rows : List URow) : Option Nat → List URow
  | none => rows
  | some k => rows.take k

/-- Stats block of the worker's return value (lines 186-201).
duration_seconds and requests_per_minute are wall-clock derived and not
modelled; symbols_with_errors is kept as the set rather than its sorted
listing. -/
structure WorkerOutput where
  totalSymbols : Nat
  processedSymbols : Nat
  skippedSymbols : Nat
  totalRequests : Nat
  successRequests : Nat
  errorRequests : Nat
  unresolvedErrorRequests : Nat
  symbolsWithErrors : Finset (List Char)

/-- Embeds fetch_and_store_alpha_vantage_data (lines 59-201): validate
the range (format of both bounds, then order), filter and truncate the
universe, clamp the end bound to today's UTC month (a parameter here),
run the two nested loops, and derive the summary fields.  The universe
read is abstracted as the given row list. -/
def fetch_and_store (rows : List URow) (startYM endYM today : List Char)
    (subset : Option (List (List Char))) (limit : Option Nat)
    (fetchOk : List Char → List Char → Bool) :
    Except WorkerError WorkerOutput :=
  if !is_valid_year_month startYM then .error .invalidStart
  else if !is_valid_year_month endYM then .error .invalidEnd
  else if pyStrLt endYM startYM then .error .invalidOrder
  else
    let df := applyLimit (applySubset rows subset) limit
    let maxEnd := pyMin endYM today
    let fin := df.foldl (stepSymbol fetchOk startYM maxEnd) initWStats
    .ok
      { totalSymbols := df.length
        processedSymbols := df.length - fin.skippedSymbols
        skippedSymbols := fin.skippedSymbols
        totalRequests := fin.totalRequests
        successRequests := fin.successRequests
        errorRequests := fin.errorRequests
        unresolvedErrorRequests := fin.failedPairs.card
        symbolsWithErrors := fin.symbolsWithErrors }

/-- The two skip conditions of the per-symbol body (lines 124-135)
combined: the stripped start_date is not a valid YYYY-MM, or it compares
above the clamped end bound. -/
def skipCond (maxEnd : List Char) (row : URow) : Bool :=
  !is_valid_year_month (stripWs row.start_date) ||
  pyStrLt maxEnd (stripWs row.start_date)

example : month_range "2020-11".data "2021-02".data =
    ["2020-11".data, "2020-12".data, "2021-01".data, "2021-02".data] := by
  rfl

example :
    (fetch_and_store
      [⟨"AAA".data, "2020-01".data⟩, ⟨"BBB".data, "2019-06".data⟩]
      "2020-01".data "2020-02".data "2025-01".data none none
      (fun _ _ => true)).map
        (fun o => (o.totalRequests, o.skippedSymbols, o.processedSymbols))
      = .ok (4, 0, 2) := by rfl

example :
    plannerResolveRange (some "1990-05".data) (some "2025-03".data)
      ⟨2025, 3, 1, 0, 0, 0⟩ = .error .glueDoesNotCover := by rfl

example :
    plannerResolveRange (some "1000-01".data) (some "1000-02".data)
      ⟨2025, 3, 1, 0, 0, 0⟩ = .error .glueStartNotJanuary := by rfl

example :
    plannerResolveRange (some "2025-01".data) (some "2025-03".data)
      ⟨2025, 3, 1, 0, 0, 0⟩ =
    .ok ⟨"2025-01".data, "2025-03".data, "2024-01".data, "2025-03".data⟩ := by
  rfl

example : planBatches ["AA".data, "BB".data, "CC".data] 2 =
    .ok [(0, ["AA".data, "BB".data]), (1, ["CC".data])] := by rfl

example : planBatches ["AA".data] (-1) = .ok [] := by rfl

example : planBatches ["AA".data] 0 = .error .rangeZeroStep := by rfl

example :
    request_with_retries (fun s : Nat => s) [.resp 503, .resp 503, .resp 200]
      = some (.returned 200, 3) := by decide

example :
    request_with_retries (fun s : Nat => s)
      [.resp 503, .resp 503, .resp 503, .resp 503]
      = some (.returned 503, 4) := by decide


/-! ## Digit and lexicographic comparison lemmas -/

lemma digitChar_lt_iff : ∀ a < 10, ∀ b < 10,
    (digitChar a < digitChar b ↔ a < b) := by decide

lemma digitChar_eq_iff : ∀ a < 10, ∀ b < 10,
    (digitChar a = digitChar b ↔ a = b) := by decide

lemma digitChar_not_space : ∀ a < 10, isPySpace (digitChar a) = false := by
  decide

lemma digitChar_isDigit : ∀ a < 10, isDigitC (digitChar a) = true := by decide

lemma digitChar_beq_zero : ∀ a < 10,
    (digitChar a == '0') = decide (a = 0) := by decide

lemma digitChar_toNat : ∀ a < 10, (digitChar a).toNat - 48 = a := by decide

lemma digitChar_ne_dash : ∀ a < 10, (digitChar a == '-') = false := by decide

lemma monthTwoDigits_pad2 : ∀ m < 13, 1 ≤ m →
    monthTwoDigits (digitChar (m / 10 % 10)) (digitChar (m % 10)) = true := by
  decide

lemma pyStrLt_cons (a b : Char) (r s : List Char) :
    pyStrLt (a :: r) (b :: s) =
      if a = b then pyStrLt r s else decide (a < b) := rfl

lemma pyStrLt_digit_cons (a b : Nat) (ha : a < 10) (hb : b < 10)
    (r s : List Char) :
    pyStrLt (digitChar a :: r) (digitChar b :: s) =
      if a < b then true else if a = b then pyStrLt r s else false := by
  rw [pyStrLt_cons]
  rcases Nat.lt_trichotomy a b with h | h | h
  · have hne : digitChar a ≠ digitChar b := by
      intro hc
      exact absurd ((digitChar_eq_iff a ha b hb).mp hc) (by omega)
    have hlt : digitChar a < digitChar b := (digitChar_lt_iff a ha b hb).mpr h
    simp [hne, hlt, h]
  · subst h
    simp
  · have hne : digitChar a ≠ digitChar b := by
      intro hc
      exact absurd ((digitChar_eq_iff a ha b hb).mp hc) (by omega)
    have hnlt : ¬ digitChar a < digitChar b := by
      intro hc
      exact absurd ((digitChar_lt_iff a ha b hb).mp hc) (by omega)
    have h1 : ¬ a < b := by omega
    have h2 : a ≠ b := by omega
    simp [hne, hnlt, h1, h2]

lemma pyStrLt_pad4_append (a b : Nat) (ha : a ≤ 9999) (hb : b ≤ 9999)
    (r s : List Char) :
    pyStrLt (pad4 a ++ r) (pad4 b ++ s) =
      if a < b then true else if a = b then pyStrLt r s else false := by
  have m10 : ∀ n : Nat, n % 10 < 10 := fun n => Nat.mod_lt _ (by norm_num)
  simp only [pad4, List.cons_append, List.nil_append]
  rw [pyStrLt_digit_cons _ _ (m10 _) (m10 _),
      pyStrLt_digit_cons _ _ (m10 _) (m10 _),
      pyStrLt_digit_cons _ _ (m10 _) (m10 _),
      pyStrLt_digit_cons _ _ (m10 _) (m10 _)]
  rcases Nat.lt_trichotomy (a / 1000 % 10) (b / 1000 % 10) with h3 | h3 | h3
  · rw [if_pos h3, if_pos (show a < b by omega)]
  · rw [if_neg (by omega), if_pos h3]
    rcases Nat.lt_trichotomy (a / 100 % 10) (b / 100 % 10) with h2 | h2 | h2
    · rw [if_pos h2, if_pos (show a < b by omega)]
    · rw [if_neg (by omega), if_pos h2]
      rcases Nat.lt_trichotomy (a / 10 % 10) (b / 10 % 10) with h1 | h1 | h1
      · rw [if_pos h1, if_pos (show a < b by omega)]
      · rw [if_neg (by omega), if_pos h1]
        rcases Nat.lt_trichotomy (a % 10) (b % 10) with h0 | h0 | h0
        · rw [if_pos h0, if_pos (show a < b by omega)]
        · rw [if_neg (by omega), if_pos h0, if_neg (by omega),
            if_pos (show a = b by omega)]
        · rw [if_neg (by omega), if_neg (by omega), if_neg (by omega),
            if_neg (show a ≠ b by omega)]
      · rw [if_neg (by omega), if_neg (by omega), if_neg (by omega),
          if_neg (show a ≠ b by omega)]
    · rw [if_neg (by omega), if_neg (by omega), if_neg (by omega),
        if_neg (show a ≠ b by omega)]
  · rw [if_neg (by omega), if_neg (by omega), if_neg (by omega),
      if_neg (show a ≠ b by omega)]

lemma pyStrLt_pad2_append (a b : Nat) (ha : a ≤ 99) (hb : b ≤ 99)
    (r s : List Char) :
    pyStrLt (pad2 a ++ r) (pad2 b ++ s) =
      if a < b then true else if a = b then pyStrLt r s else false := by
  have m10 : ∀ n : Nat, n % 10 < 10 := fun n => Nat.mod_lt _ (by norm_num)
  simp only [pad2, List.cons_append, List.nil_append]
  rw [pyStrLt_digit_cons _ _ (m10 _) (m10 _),
      pyStrLt_digit_cons _ _ (m10 _) (m10 _)]
  rcases Nat.lt_trichotomy (a / 10 % 10) (b / 10 % 10) with h1 | h1 | h1
  · rw [if_pos h1, if_pos (show a < b by omega)]
  · rw [if_neg (by omega), if_pos h1]
    rcases Nat.lt_trichotomy (a % 10) (b % 10) with h0 | h0 | h0
    · rw [if_pos h0, if_pos (show a < b by omega)]
    · rw [if_neg (by omega), if_pos h0, if_neg (by omega),
        if_pos (show a = b by omega)]
    · rw [if_neg (by omega), if_neg (by omega), if_neg (by omega),
        if_neg (show a ≠ b by omega)]
  · rw [if_neg (by omega), if_neg (by omega), if_neg (by omega),
      if_neg (show a ≠ b by omega)]

/-- String comparison of two canonically rendered year-months is the
lexicographic comparison of the (year, month) pairs. -/
lemma pyStrLt_ymChars (y1 m1 y2 m2 : Nat) (hy1 : y1 ≤ 9999)
    (hy2 : y2 ≤ 9999) (hm1 : m1 ≤ 99) (hm2 : m2 ≤ 99) :
    pyStrLt (ymChars y1 m1) (ymChars y2 m2) =
      decide (y1 < y2 ∨ (y1 = y2 ∧ m1 < m2)) := by
  unfold ymChars
  rw [pyStrLt_pad4_append _ _ hy1 hy2]
  rcases Nat.lt_trichotomy y1 y2 with h | h | h
  · rw [if_pos h]
    symm
    rw [decide_eq_true_eq]
    omega
  · subst h
    have hm : pyStrLt ('-' :: pad2 m1) ('-' :: pad2 m2) =
        pyStrLt (pad2 m1) (pad2 m2) := by
      rw [pyStrLt_cons]; simp
    rw [if_neg (lt_irrefl _), if_pos rfl, hm]
    have h2 : pyStrLt (pad2 m1 ++ []) (pad2 m2 ++ []) =
        if m1 < m2 then true else if m1 = m2 then pyStrLt [] [] else false :=
      pyStrLt_pad2_append _ _ hm1 hm2 [] []
    simp only [List.append_nil] at h2
    rw [h2]
    rcases Nat.lt_trichotomy m1 m2 with h0 | h0 | h0
    · rw [if_pos h0]
      symm
      rw [decide_eq_true_eq]
      omega
    · subst h0
      rw [if_neg (lt_irrefl _), if_pos rfl]
      show false = _
      symm
      rw [decide_eq_false_iff_not]
      omega
    · rw [if_neg (by omega), if_neg (show m1 ≠ m2 by omega)]
      symm
      rw [decide_eq_false_iff_not]
      omega
  · rw [if_neg (by omega), if_neg (show y1 ≠ y2 by omega)]
    symm
    rw [decide_eq_false_iff_not]
    omega

/-! ## Stripping, rendering and validation lemmas -/

lemma dropWhile_of_all_false {p : Char → Bool} :
    ∀ l : List Char, (∀ c ∈ l, p c = false) → l.dropWhile p = l := by
  intro l h
  cases l with
  | nil => rfl
  | cons a t =>
      rw [List.dropWhile_cons_of_neg]
      simp [h a (by simp)]

lemma stripWs_of_no_space (l : List Char)
    (h : ∀ c ∈ l, isPySpace c = false) : stripWs l = l := by
  unfold stripWs
  rw [dropWhile_of_all_false l h,
      dropWhile_of_all_false l.reverse (by
        intro c hc
        exact h c (List.mem_reverse.mp hc)),
      List.reverse_reverse]

lemma ymChars_no_space (y m : Nat) :
    ∀ c ∈ ymChars y m, isPySpace c = false := by
  intro c hc
  have m10 : ∀ n : Nat, n % 10 < 10 := fun n => Nat.mod_lt _ (by norm_num)
  simp only [ymChars, pad4, pad2, List.cons_append, List.nil_append,
    List.mem_cons, List.not_mem_nil, or_false] at hc
  rcases hc with h | h | h | h | h | h | h <;> subst h
  · exact digitChar_not_space _ (m10 _)
  · exact digitChar_not_space _ (m10 _)
  · exact digitChar_not_space _ (m10 _)
  · exact digitChar_not_space _ (m10 _)
  · rfl
  · exact digitChar_not_space _ (m10 _)
  · exact digitChar_not_space _ (m10 _)

lemma stripWs_ymChars (y m : Nat) : stripWs (ymChars y m) = ymChars y m :=
  stripWs_of_no_space _ (ymChars_no_space y m)

lemma yearOkChars_pad4 (y : Nat) (h1 : 1 ≤ y) (h2 : y ≤ 9999) :
    yearOkChars (digitChar (y / 1000 % 10)) (digitChar (y / 100 % 10))
      (digitChar (y / 10 % 10)) (digitChar (y % 10)) = true := by
  have m10 : ∀ n : Nat, n % 10 < 10 := fun n => Nat.mod_lt _ (by norm_num)
  unfold yearOkChars
  rw [digitChar_isDigit _ (m10 _), digitChar_isDigit _ (m10 _),
      digitChar_isDigit _ (m10 _), digitChar_isDigit _ (m10 _),
      digitChar_beq_zero _ (m10 _), digitChar_beq_zero _ (m10 _),
      digitChar_beq_zero _ (m10 _), digitChar_beq_zero _ (m10 _)]
  simp only [Bool.true_and, Bool.and_eq_true, Bool.not_eq_true',
    Bool.and_eq_false_iff, decide_eq_false_iff_not, decide_eq_true_eq]
  omega

/-- A canonically rendered year-month for a real calendar year and month
passes the source's validation. -/
lemma isValid_ymChars (y m : Nat) (hy1 : 1 ≤ y) (hy2 : y ≤ 9999)
    (hm1 : 1 ≤ m) (hm2 : m ≤ 12) :
    is_valid_year_month (ymChars y m) = true := by
  unfold is_valid_year_month
  rw [stripWs_ymChars]
  show isValidYMChars
    (digitChar (y / 1000 % 10) :: digitChar (y / 100 % 10) ::
      digitChar (y / 10 % 10) :: digitChar (y % 10) :: '-' ::
      [digitChar (m / 10 % 10), digitChar (m % 10)]) = true
  have hY := yearOkChars_pad4 y hy1 hy2
  have hM := monthTwoDigits_pad2 m (by omega) hm1
  simp only [isValidYMChars, monthPartOk, hY, hM]
  rfl

lemma pyStrNatAux_fuel_irrel :
    ∀ f g k : Nat, k ≤ f → k ≤ g → pyStrNatAux f k = pyStrNatAux g k := by
  intro f
  induction f with
  | zero =>
      intro g k hf _
      interval_cases k
      cases g with
      | zero => rfl
      | succ g => simp [pyStrNatAux]
  | succ f ih =>
      intro g k hf hg
      cases g with
      | zero =>
          have : k = 0 := by omega
          subst this
          simp [pyStrNatAux]
      | succ g =>
          show pyStrNatAux (f + 1) k = pyStrNatAux (g + 1) k
          by_cases hk : k < 10
          · simp [pyStrNatAux, hk]
          · have hrec : k / 10 ≤ f := by omega
            have hrec2 : k / 10 ≤ g := by omega
            simp only [pyStrNatAux, if_neg hk]
            rw [ih g (k / 10) hrec hrec2]

/-- Python str(n) for a four-digit n coincides with zero-padded 04d
rendering (the unpadded and padded renderings agree exactly there). -/
lemma pyStrNat_eq_pad4 (n : Nat) (h1 : 1000 ≤ n) (h2 : n ≤ 9999) :
    pyStrNat n = pad4 n := by
  have e1 : pyStrNat n = pyStrNat (n / 10) ++ [digitChar (n % 10)] := by
    obtain ⟨f, hf⟩ : ∃ f, n = f + 1 := ⟨n - 1, by omega⟩
    unfold pyStrNat
    rw [hf]
    simp only [pyStrNatAux, if_neg (show ¬ f + 1 < 10 by omega)]
    rw [pyStrNatAux_fuel_irrel f ((f + 1) / 10) ((f + 1) / 10)
      (by omega) (le_refl _)]
  have e2 : pyStrNat (n / 10) =
      pyStrNat (n / 100) ++ [digitChar (n / 10 % 10)] := by
    obtain ⟨f, hf⟩ : ∃ f, n / 10 = f + 1 := ⟨n / 10 - 1, by omega⟩
    unfold pyStrNat
    rw [hf]
    simp only [pyStrNatAux, if_neg (show ¬ f + 1 < 10 by omega)]
    rw [← hf, (show n / 10 / 10 = n / 100 by omega),
      pyStrNatAux_fuel_irrel f (n / 100) (n / 100) (by omega) (le_refl _)]
  have e3 : pyStrNat (n / 100) =
      pyStrNat (n / 1000) ++ [digitChar (n / 100 % 10)] := by
    obtain ⟨f, hf⟩ : ∃ f, n / 100 = f + 1 := ⟨n / 100 - 1, by omega⟩
    unfold pyStrNat
    rw [hf]
    simp only [pyStrNatAux, if_neg (show ¬ f + 1 < 10 by omega)]
    rw [← hf, (show n / 100 / 10 = n / 1000 by omega),
      pyStrNatAux_fuel_irrel f (n / 1000) (n / 1000) (by omega) (le_refl _)]
  have e4 : pyStrNat (n / 1000) = [digitChar (n / 1000)] := by
    obtain ⟨f, hf⟩ : ∃ f, n / 1000 = f + 1 := ⟨n / 1000 - 1, by omega⟩
    unfold pyStrNat
    rw [hf]
    simp only [pyStrNatAux, if_pos (show f + 1 < 10 by omega)]
  rw [e1, e2, e3, e4]
  have h1000 : n / 1000 % 10 = n / 1000 := Nat.mod_eq_of_lt (by omega)
  simp [pad4, h1000]

lemma yearOf4_ymChars (y m : Nat) (hy : y ≤ 9999) :
    yearOf4 (ymChars y m) = y := by
  have m10 : ∀ n : Nat, n % 10 < 10 := fun n => Nat.mod_lt _ (by norm_num)
  show yearOf4 (digitChar (y / 1000 % 10) :: digitChar (y / 100 % 10) ::
    digitChar (y / 10 % 10) :: digitChar (y % 10) :: '-' ::
    pad2 m) = y
  simp only [yearOf4]
  rw [digitChar_toNat _ (m10 _), digitChar_toNat _ (m10 _),
      digitChar_toNat _ (m10 _), digitChar_toNat _ (m10 _)]
  omega

/-- Canonical rendering is injective on real years and bounded months. -/
lemma ymChars_inj (y1 m1 y2 m2 : Nat) (hy1 : y1 ≤ 9999) (hy2 : y2 ≤ 9999)
    (hm1 : m1 ≤ 99) (hm2 : m2 ≤ 99)
    (h : ymChars y1 m1 = ymChars y2 m2) : y1 = y2 ∧ m1 = m2 := by
  have m10 : ∀ n : Nat, n % 10 < 10 := fun n => Nat.mod_lt _ (by norm_num)
  simp only [ymChars, pad4, pad2, List.cons_append, List.nil_append,
    List.cons.injEq, and_true] at h
  obtain ⟨d3, d2, d1, d0, _, e1, e0⟩ := h
  have d3' := (digitChar_eq_iff _ (m10 _) _ (m10 _)).mp d3
  have d2' := (digitChar_eq_iff _ (m10 _) _ (m10 _)).mp d2
  have d1' := (digitChar_eq_iff _ (m10 _) _ (m10 _)).mp d1
  have d0' := (digitChar_eq_iff _ (m10 _) _ (m10 _)).mp d0
  have e1' := (digitChar_eq_iff _ (m10 _) _ (m10 _)).mp e1
  have e0' := (digitChar_eq_iff _ (m10 _) _ (m10 _)).mp e0
  omega

/-- The source's validation accepts exactly the strings whose stripped
form is either canonical YYYY-MM or the four-digit-year, single-digit
month variant. -/
lemma isValidYMChars_characterization (l : List Char) :
    isValidYMChars l = (isCanonicalYMChars l || isShortMonthYMChars l) := by
  rcases l with _ | ⟨a, _ | ⟨b, _ | ⟨c, _ | ⟨d, _ | ⟨h,
    _ | ⟨e, _ | ⟨f, _ | ⟨g, t⟩⟩⟩⟩⟩⟩⟩⟩ <;>
    simp [isValidYMChars, isCanonicalYMChars, isShortMonthYMChars,
      monthPartOk]

lemma pyStrLt_self : ∀ l : List Char, pyStrLt l l = false := by
  intro l
  induction l with
  | nil => rfl
  | cons a t ih => rw [pyStrLt_cons, if_pos rfl, ih]

/-! ## Claim C5 -/

/-- C5: the retrying HTTP client with retry budget 3 (4 total attempts)
returns a 2xx response immediately with no further attempts; on the
status sequence 503, 503, 200 the final result is the 200 response after
three attempts; and on 503, 503, 503, 503 the last 503 is returned after
exactly the four supplied attempts, so no fifth attempt is issued. -/
theorem claim_c5_retry_client :
    (∀ (s : Nat) (rest : List (AttemptOutcome Nat)), 200 ≤ s → s < 300 →
      request_with_retries (fun x => x) (.resp s :: rest) =
        some (.returned s, 1)) ∧
    request_with_retries (fun x : Nat => x)
      [.resp 503, .resp 503, .resp 200] = some (.returned 200, 3) ∧
    request_with_retries (fun x : Nat => x)
      [.resp 503, .resp 503, .resp 503, .resp 503] =
      some (.returned 503, 4) := by
  refine ⟨?_, by decide, by decide⟩
  intro s rest h1 h2
  unfold request_with_retries
  simp only [retryLoop]
  rw [if_pos ⟨h1, h2⟩]

/-- Witness for C5: a concrete 2xx response is returned on the first
attempt. -/
theorem claim_c5_retry_client_witness :
    request_with_retries (fun x : Nat => x) [.resp 204] =
      some (.returned 204, 1) :=
  claim_c5_retry_client.1 204 [] (by norm_num) (by norm_num)

/-! ## Claim C2 -/

/-- C2 counterexample: on a parsed body carrying both a Note field (value
N) and an Error Message field (value E), the monthly-adjusted fetch
returns the upstream error E, not the rate-limit Note N — while the
intraday fetch returns N — so the three operations do not uniformly
prefer the rate-limit error. -/
theorem claim_c2_counterexample :
    fetch_monthly_adjusted_validate
      (.returned ⟨200, "application/json".data,
        .parsed ⟨some "N".data, some "E".data⟩⟩) =
      ⟨false, some "E".data⟩ ∧
    get_symbol_monthly_data_validate
      (.returned ⟨200, "application/json".data,
        .parsed ⟨some "N".data, some "E".data⟩⟩) =
      ⟨false, some "N".data⟩ ∧
    "E".data ≠ "N".data := by
  refine ⟨by rfl, by rfl, by decide⟩

/-- C2 amended: when the parsed body carries both the Note field and the
Error Message field, get_symbol_monthly_data and symbol_search return
the rate-limit (Note) error, but _fetch_monthly_adjusted checks Error
Message first and returns the upstream error instead. -/
theorem claim_c2_amended :
    ∀ (st : Nat) (ct : List Char) (b : ApiBody) (n m : List Char),
      200 ≤ st → st < 300 →
      contentTypeIsJson ct = true →
      b.note = some n → b.errorMessage = some m →
      get_symbol_monthly_data_validate (.returned ⟨st, ct, .parsed b⟩) =
        ⟨false, some n⟩ ∧
      symbol_search_validate (.returned ⟨st, ct, .parsed b⟩) =
        ⟨false, some n⟩ ∧
      fetch_monthly_adjusted_validate (.returned ⟨st, ct, .parsed b⟩) =
        ⟨false, some m⟩ := by
  intro st ct b n m h1 h2 hct hn hm
  obtain ⟨note, em⟩ := b
  simp only at hn hm
  subst hn
  subst hm
  refine ⟨?_, ?_, ?_⟩ <;>
    simp [get_symbol_monthly_data_validate, symbol_search_validate,
      fetch_monthly_adjusted_validate, hct, h1, h2]

/-- Witness for C2 amended: concrete response with both fields. -/
theorem claim_c2_amended_witness :
    get_symbol_monthly_data_validate
      (.returned ⟨200, "application/json".data,
        .parsed ⟨some "NN".data, some "EE".data⟩⟩) =
      ⟨false, some "NN".data⟩ ∧
    symbol_search_validate
      (.returned ⟨200, "application/json".data,
        .parsed ⟨some "NN".data, some "EE".data⟩⟩) =
      ⟨false, some "NN".data⟩ ∧
    fetch_monthly_adjusted_validate
      (.returned ⟨200, "application/json".data,
        .parsed ⟨some "NN".data, some "EE".data⟩⟩) =
      ⟨false, some "EE".data⟩ :=
  claim_c2_amended 200 "application/json".data ⟨some "NN".data, some "EE".data⟩
    "NN".data "EE".data (by norm_num) (by norm_num) (by decide) rfl rfl

/-! ## Claim C9 -/

/-- C9: when the envelope validation passes (2xx, JSON content type,
parsed body without Note or Error Message), get_symbol_monthly_data with
save enabled returns ok even when the S3 persistence fails: the result
of save_bronze_raw, which internally records ok = false for a failed
upload, is ignored.  Consequently the worker's per-month step counts
such a fetch as a success request and does not add the pair to the
failure set. -/
theorem claim_c9_save_failure_ignored :
    ∀ (st : Nat) (ct : List Char) (b : ApiBody) (emsg : List Char)
      (fetchOk : List Char → List Char → Bool) (sym mo : List Char)
      (w : WStats),
      200 ≤ st → st < 300 → contentTypeIsJson ct = true →
      b.note = none → b.errorMessage = none →
      get_symbol_monthly_data_run (.returned ⟨st, ct, .parsed b⟩) true
        (.error emsg) = ⟨true, none⟩ ∧
      (save_bronze_raw false (.ok []) true (.error emsg)).ok = false ∧
      (fetchOk sym mo = true → (sym, mo) ∉ w.failedPairs →
        stepMonth fetchOk sym mo w =
          { w with totalRequests := w.totalRequests + 1
                   successRequests := w.successRequests + 1 }) := by
  intro st ct b emsg fetchOk sym mo w h1 h2 hct hn hm
  obtain ⟨note, em⟩ := b
  simp only at hn hm
  subst hn
  subst hm
  refine ⟨?_, by rfl, ?_⟩
  · simp [get_symbol_monthly_data_run, get_symbol_monthly_data_validate,
      hct, h1, h2]
  · intro hok hmem
    simp [stepMonth, hok, hmem]

/-- Witness for C9: a concrete successful response whose S3 save fails. -/
theorem claim_c9_save_failure_ignored_witness :
    get_symbol_monthly_data_run
      (.returned ⟨200, "application/json".data, .parsed ⟨none, none⟩⟩)
      true (.error "AccessDenied".data) = ⟨true, none⟩ ∧
    (save_bronze_raw false (.ok []) true
      (.error "AccessDenied".data)).ok = false :=
  ⟨(claim_c9_save_failure_ignored 200 "application/json".data ⟨none, none⟩
      "AccessDenied".data (fun _ _ => true) "IBM".data "2020-01".data
      initWStats (by norm_num) (by norm_num) (by decide) rfl rfl).1,
   (claim_c9_save_failure_ignored 200 "application/json".data ⟨none, none⟩
      "AccessDenied".data (fun _ _ => true) "IBM".data "2020-01".data
      initWStats (by norm_num) (by norm_num) (by decide) rfl rfl).2.1⟩

/-! ## Claim C4 -/

/-- C4 counterexample: the string 2025-1 is accepted by the planner's
validation although it is not in the canonical zero-padded YYYY-MM form,
so acceptance is not equivalent to canonical form. -/
theorem claim_c4_counterexample :
    is_valid_year_month "2025-1".data = true ∧
    isCanonicalYMChars (stripWs "2025-1".data) = false := by decide

/-- C4 amended: the planner's validation accepts every canonical YYYY-MM
bound, but it accepts exactly the strings whose stripped form is either
canonical YYYY-MM or a four-digit year with a single-digit month 1-9
(Python strptime also tolerates the unpadded month).  On two accepted
bounds the order check runs after the format check and fails exactly
when end compares below start in string order; when either bound is
rejected the format error is raised first. -/
theorem claim_c4_amended :
    (∀ y m : Nat, 1 ≤ y → y ≤ 9999 → 1 ≤ m → m ≤ 12 →
      is_valid_year_month (ymChars y m) = true) ∧
    (∀ l : List Char, is_valid_year_month l =
      (isCanonicalYMChars (stripWs l) || isShortMonthYMChars (stripWs l))) ∧
    (∀ s e : List Char,
      (is_valid_year_month s && is_valid_year_month e) = false →
      plannerValidate s e = .error .invalidFormat) ∧
    (∀ s e : List Char, is_valid_year_month s = true →
      is_valid_year_month e = true →
      plannerValidate s e =
        if pyStrLt e s then .error .invalidOrder else .ok ()) := by
  refine ⟨fun y m h1 h2 h3 h4 => isValid_ymChars y m h1 h2 h3 h4,
    fun l => isValidYMChars_characterization (stripWs l), ?_, ?_⟩
  · intro s e h
    simp [plannerValidate, h]
  · intro s e hs he
    simp [plannerValidate, hs, he]

/-- Witness for C4 amended: canonical acceptance, the characterization
on a concrete string, format-first and order-check behavior. -/
theorem claim_c4_amended_witness :
    is_valid_year_month (ymChars 2025 7) = true ∧
    is_valid_year_month "31-12".data =
      (isCanonicalYMChars (stripWs "31-12".data) ||
        isShortMonthYMChars (stripWs "31-12".data)) ∧
    plannerValidate "2O25-01".data "2025-02".data = .error .invalidFormat ∧
    plannerValidate "2025-03".data "2025-01".data =
      (if pyStrLt "2025-01".data "2025-03".data then .error .invalidOrder
       else .ok ()) :=
  ⟨claim_c4_amended.1 2025 7 (by norm_num) (by norm_num) (by norm_num)
      (by norm_num),
   claim_c4_amended.2.1 "31-12".data,
   claim_c4_amended.2.2.1 "2O25-01".data "2025-02".data (by decide),
   claim_c4_amended.2.2.2 "2025-03".data "2025-01".data (by decide)
     (by decide)⟩

/-! ## Claim C7 -/

/-- C7: with no explicit override the planner's default ingest range has
start equal to the calendar month immediately preceding the trigger
time's UTC month (the month index drops by exactly one, covering the
January wrap to the previous December) and end equal to the trigger
month, and the computation depends only on the trigger's year and month,
not on the time of day. -/
theorem claim_c7_default_range :
    ∀ t : PyDateTime, 1 ≤ t.year → t.year ≤ 9999 → 1 ≤ t.month →
      t.month ≤ 12 →
      (∃ py pm, prev_month t.year t.month = (py, pm) ∧
        1 ≤ pm ∧ pm ≤ 12 ∧
        12 * py + pm + 1 = 12 * t.year + t.month ∧
        (defaultIngestRange t).1 = ymChars py pm) ∧
      (defaultIngestRange t).2 = ymChars t.year t.month ∧
      (∀ t' : PyDateTime, t'.year = t.year → t'.month = t.month →
        defaultIngestRange t' = defaultIngestRange t) := by
  intro t hy1 hy2 hm1 hm2
  refine ⟨?_, rfl, ?_⟩
  · by_cases h : t.month = 1
    · exact ⟨t.year - 1, 12, by simp [prev_month, h], by norm_num,
        by norm_num, by omega, by simp [defaultIngestRange, prev_month, h]⟩
    · exact ⟨t.year, t.month - 1, by simp [prev_month, h], by omega,
        by omega, by omega, by simp [defaultIngestRange, prev_month, h]⟩
  · intro t' hy hm
    simp [defaultIngestRange, prev_month, hy, hm]

/-- Witness for C7: the default range is time-of-day independent and
wraps January back to December at a concrete trigger. -/
theorem claim_c7_default_range_witness :
    defaultIngestRange ⟨2026, 1, 5, 23, 59, 59⟩ =
      defaultIngestRange ⟨2026, 1, 15, 10, 30, 0⟩ :=
  (claim_c7_default_range ⟨2026, 1, 15, 10, 30, 0⟩ (by norm_num)
    (by norm_num) (by norm_num) (by norm_num)).2.2
    ⟨2026, 1, 5, 23, 59, 59⟩ rfl rfl

/-! ## Claim C3 -/

/-- C3 counterexample: with batch_size equal to negative one — which is
at most zero — the planner does not fail with a validation error: the
chunk loop body never runs (Python range with a negative step from 0 is
empty) and the planner returns a normal result carrying zero batches. -/
theorem claim_c3_counterexample :
    planBatches ["AAA".data] (-1) = .ok [] ∧ (-1 : Int) ≤ 0 :=
  ⟨by rfl, by norm_num⟩

/-- C3 amended: there is no dedicated batch-size validation.  For
batch_size equal to zero the run aborts with the ValueError that Python
range raises when the chunk generator is first driven (before any batch
is produced); for negative batch_size the planner returns a successful
result with an empty batch list. -/
theorem claim_c3_amended :
    ∀ (l : List (List Char)) (bs : Int), bs ≤ 0 →
      (bs = 0 → planBatches l bs = .error .rangeZeroStep) ∧
      (bs < 0 → planBatches l bs = .ok []) := by
  intro l bs _
  constructor
  · intro h0
    subst h0
    simp [planBatches, pyChunk]
  · intro hneg
    simp [planBatches, pyChunk, hneg, (show bs ≠ 0 by omega)]

/-- Witness for C3 amended at concrete batch sizes. -/
theorem claim_c3_amended_witness :
    planBatches ["AAA".data] 0 = .error .rangeZeroStep ∧
    planBatches ["AAA".data] (-2) = .ok [] :=
  ⟨(claim_c3_amended ["AAA".data] 0 (by norm_num)).1 rfl,
   (claim_c3_amended ["AAA".data] (-2) (by norm_num)).2 (by norm_num)⟩

/-! ## Claim C1 -/

/-- C1 counterexample: the bounds 1990-05 and 2025-03 are canonically
formed, pass validation with start below end, yet the derived coverage
range 2024-01 .. 2025-03 does not contain the ingest start, so the
planner aborts with the coverage-containment failure. -/
theorem claim_c1_counterexample :
    plannerValidate "1990-05".data "2025-03".data = .ok () ∧
    isCanonicalYMChars "1990-05".data = true ∧
    isCanonicalYMChars "2025-03".data = true ∧
    plannerResolveRange (some "1990-05".data) (some "2025-03".data)
      ⟨2025, 3, 14, 12, 0, 0⟩ = .error .glueDoesNotCover :=
  ⟨by rfl, by decide, by decide, by rfl⟩

/-- C1 amended: for canonically formed, validated bounds whose start
year is at least the end year minus one and whose end year is at least
1001 (so that the unpadded str(end_year - 1) still renders four digits),
the planner derives the coverage range (January of end year - 1, end),
the month slice of the coverage start is 01, the coverage start does not
exceed the ingest start, the coverage end equals the ingest end, and the
defensive checks pass, so resolution returns the ranges instead of
aborting.  (Without the two extra year conditions the checks can trip:
see the counterexample, and the 1000-xx bounds where the unpadded yearly
rendering breaks the month-slice check.) -/
theorem claim_c1_amended :
    ∀ (ys ms ye me : Nat) (now : PyDateTime),
      1 ≤ ys → ys ≤ 9999 → 1 ≤ ms → ms ≤ 12 →
      1001 ≤ ye → ye ≤ 9999 → 1 ≤ me → me ≤ 12 →
      (ys < ye ∨ (ys = ye ∧ ms ≤ me)) →
      ye - 1 ≤ ys →
      plannerResolveRange (some (ymChars ys ms)) (some (ymChars ye me))
        now =
        .ok ⟨ymChars ys ms, ymChars ye me,
          pad4 (ye - 1) ++ '-' :: '0' :: '1' :: [], ymChars ye me⟩ ∧
      ((pad4 (ye - 1) ++ '-' :: '0' :: '1' :: []).drop 5).take 2 =
        ['0', '1'] ∧
      pyStrLt (ymChars ys ms)
        (pad4 (ye - 1) ++ '-' :: '0' :: '1' :: []) = false := by
  intro ys ms ye me now hys1 hys2 hms1 hms2 hye1 hye2 hme1 hme2 hord hyr
  have hvs := isValid_ymChars ys ms hys1 hys2 hms1 hms2
  have hve := isValid_ymChars ye me (by omega) hye2 hme1 hme2
  have hordF : pyStrLt (ymChars ye me) (ymChars ys ms) = false := by
    rw [pyStrLt_ymChars ye me ys ms hye2 hys2 (by omega) (by omega),
      decide_eq_false_iff_not]
    omega
  have hslice : ((pad4 (ye - 1) ++ '-' :: '0' :: '1' :: []).drop 5).take 2 =
      ['0', '1'] := by rfl
  have hcov : pyStrLt (ymChars ys ms)
      (pad4 (ye - 1) ++ '-' :: '0' :: '1' :: []) = false := by
    show pyStrLt (pad4 ys ++ '-' :: pad2 ms)
      (pad4 (ye - 1) ++ '-' :: '0' :: '1' :: []) = false
    rw [pyStrLt_pad4_append ys (ye - 1) hys2 (by omega)]
    by_cases h : ys = ye - 1
    · rw [if_neg (by omega), if_pos h, pyStrLt_cons, if_pos rfl]
      have h01 : ('0' :: '1' :: ([] : List Char)) = pad2 1 ++ [] := rfl
      have hm2 : pad2 ms = pad2 ms ++ [] := by simp
      rw [h01, hm2, pyStrLt_pad2_append ms 1 (by omega) (by norm_num),
        if_neg (by omega)]
      by_cases hm : ms = 1
      · rw [if_pos hm]
        rfl
      · rw [if_neg hm]
    · rw [if_neg (by omega), if_neg h]
  refine ⟨?_, hslice, hcov⟩
  unfold plannerResolveRange
  simp only [Option.getD_some, stripWs_ymChars]
  rw [if_neg (by simp [ymChars, pad4])]
  simp only
  rw [(show plannerValidate (ymChars ys ms) (ymChars ye me) = .ok () by
    simp [plannerValidate, hvs, hve, hordF])]
  simp only [yearOf4_ymChars ye me hye2,
    pyStrNat_eq_pad4 (ye - 1) (by omega) (by omega)]
  rw [if_neg (by simp [hslice]), if_neg (by simp [hcov, pyStrLt_self])]

/-- Witness for C1 amended at concrete canonical bounds. -/
theorem claim_c1_amended_witness :
    plannerResolveRange (some (ymChars 2024 11)) (some (ymChars 2025 2))
      ⟨2025, 3, 14, 12, 0, 0⟩ =
      .ok ⟨ymChars 2024 11, ymChars 2025 2,
        pad4 (2025 - 1) ++ '-' :: '0' :: '1' :: [], ymChars 2025 2⟩ :=
  (claim_c1_amended 2024 11 2025 2 ⟨2025, 3, 14, 12, 0, 0⟩ (by norm_num)
    (by norm_num) (by norm_num) (by norm_num) (by norm_num) (by norm_num)
    (by norm_num) (by norm_num) (by norm_num) (by norm_num)).1

/-! ## Claim C6: chunking lemmas -/

lemma chunkFuel_nil (n : Nat) : ∀ f, chunkFuel f [] n = [] := by
  intro f
  cases f with
  | zero => rfl
  | succ f => rfl

lemma chunkFuel_cons (f : Nat) (a : List Char) (t : List (List Char))
    (n : Nat) :
    chunkFuel (f + 1) (a :: t) n =
      (a :: t).take n :: chunkFuel f ((a :: t).drop n) n := by
  simp [chunkFuel]

lemma chunkFuel_ne_nil (f : Nat) (l : List (List Char)) (n : Nat)
    (hf : 1 ≤ f) (hl : l ≠ []) : chunkFuel f l n ≠ [] := by
  obtain ⟨g, rfl⟩ : ∃ g, f = g + 1 := ⟨f - 1, by omega⟩
  cases l with
  | nil => exact absurd rfl hl
  | cons a t =>
      rw [chunkFuel_cons]
      exact List.cons_ne_nil _ _

lemma chunkFuel_join : ∀ (f : Nat) (l : List (List Char)) (n : Nat),
    1 ≤ n → l.length ≤ f → (chunkFuel f l n).flatten = l := by
  intro f
  induction f with
  | zero =>
      intro l n h1 h2
      have hl : l = [] := List.length_eq_zero.mp (by omega)
      subst hl
      rfl
  | succ f ih =>
      intro l n h1 h2
      cases l with
      | nil => rfl
      | cons a t =>
          have hd : ((a :: t).drop n).length ≤ f := by
            rw [List.length_drop]
            simp only [List.length_cons] at h2 ⊢
            omega
          rw [chunkFuel_cons, List.flatten_cons, ih _ n h1 hd]
          exact List.take_append_drop n (a :: t)

lemma chunkFuel_length : ∀ (f : Nat) (l : List (List Char)) (n : Nat),
    1 ≤ n → l.length ≤ f →
    (chunkFuel f l n).length = (l.length + n - 1) / n := by
  intro f
  induction f with
  | zero =>
      intro l n h1 h2
      have hl : l = [] := List.length_eq_zero.mp (by omega)
      subst hl
      simp [chunkFuel, Nat.div_eq_of_lt (show n - 1 < n by omega)]
  | succ f ih =>
      intro l n h1 h2
      cases l with
      | nil => simp [chunkFuel, Nat.div_eq_of_lt (show n - 1 < n by omega)]
      | cons a t =>
          have hd : ((a :: t).drop n).length ≤ f := by
            rw [List.length_drop]
            simp only [List.length_cons] at h2 ⊢
            omega
          rw [chunkFuel_cons, List.length_cons, ih _ n h1 hd,
            List.length_drop, List.length_cons]
          by_cases hc : t.length + 1 ≤ n
          · rw [(show t.length + 1 - n = 0 by omega),
              Nat.div_eq_of_lt (show 0 + n - 1 < n by omega),
              (show t.length + 1 + n - 1 = (t.length + 1 - 1) + n by omega),
              Nat.add_div_right _ (by omega),
              Nat.div_eq_of_lt (show t.length + 1 - 1 < n by omega)]
          · rw [(show t.length + 1 - n + n - 1 = (t.length + 1 - 1 - n) + n
                by omega),
              Nat.add_div_right _ (by omega),
              (show t.length + 1 + n - 1 = (t.length + 1 - 1 - n) + n + n
                by omega),
              Nat.add_div_right _ (by omega), Nat.add_div_right _ (by omega)]

lemma chunkFuel_dropLast : ∀ (f : Nat) (l : List (List Char)) (n : Nat),
    1 ≤ n → l.length ≤ f →
    ∀ c ∈ (chunkFuel f l n).dropLast, c.length = n := by
  intro f
  induction f with
  | zero =>
      intro l n h1 h2 c hc
      have hl : l = [] := List.length_eq_zero.mp (by omega)
      subst hl
      simp [chunkFuel] at hc
  | succ f ih =>
      intro l n h1 h2 c hc
      cases l with
      | nil => simp [chunkFuel] at hc
      | cons a t =>
          rw [chunkFuel_cons] at hc
          by_cases hd : (a :: t).drop n = []
          · rw [hd, chunkFuel_nil] at hc
            simp at hc
          · have hlen : n < (a :: t).length := by
              by_contra hcon
              exact hd (List.drop_eq_nil_iff.mpr (by omega))
            have hfl : ((a :: t).drop n).length ≤ f := by
              rw [List.length_drop]
              simp only [List.length_cons] at h2 ⊢
              omega
            have hrest : chunkFuel f ((a :: t).drop n) n ≠ [] :=
              chunkFuel_ne_nil f _ n (by
                simp only [List.length_cons] at h2 hlen
                omega) hd
            obtain ⟨b, L, hb⟩ := List.exists_cons_of_ne_nil hrest
            rw [hb, List.dropLast_cons₂, List.mem_cons] at hc
            rcases hc with hc | hc
            · subst hc
              rw [List.length_take]
              omega
            · exact ih _ n h1 hfl c (by rw [hb]; exact hc)

/-- C6: for a positive batch size B the planner yields exactly
ceil(N / B) batch descriptors; the batch_id fields are the successive
chunk indices 0, 1, ...; concatenating the symbol subsets in batch order
reproduces the input list exactly; and every chunk except possibly the
last carries exactly B symbols. -/
theorem claim_c6_partitioning :
    ∀ (symbols : List (List Char)) (B : Nat), 1 ≤ B →
      ∃ batches, planBatches symbols (B : Int) = .ok batches ∧
        batches.length = (symbols.length + B - 1) / B ∧
        batches.map Prod.fst = List.range batches.length ∧
        (batches.map Prod.snd).flatten = symbols ∧
        (∀ p ∈ batches.dropLast, p.2.length = B) := by
  intro symbols B hB
  have hplan : planBatches symbols (B : Int) =
      .ok (chunkFuel symbols.length symbols B).enum := by
    have h0 : ¬ ((B : Int) = 0) := by omega
    have h1 : ¬ ((B : Int) < 0) := by omega
    have h2 : (B : Int).toNat = B := by omega
    simp [planBatches, pyChunk, h0, h1, h2]
  refine ⟨(chunkFuel symbols.length symbols B).enum, hplan, ?_, ?_, ?_, ?_⟩
  · rw [List.enum_length]
    exact chunkFuel_length _ _ _ hB (le_refl _)
  · rw [List.enum_map_fst, List.enum_length]
  · rw [List.enum_map_snd]
    exact chunkFuel_join _ _ _ hB (le_refl _)
  · intro p hp
    have h1 : p.2 ∈ ((chunkFuel symbols.length symbols B).enum.dropLast).map
        Prod.snd := List.mem_map_of_mem _ hp
    rw [List.map_dropLast, List.enum_map_snd] at h1
    exact chunkFuel_dropLast _ _ _ hB (le_refl _) _ h1

/-- Witness for C6 at a concrete three-symbol universe and batch size
two. -/
theorem claim_c6_partitioning_witness :
    ∃ batches,
      planBatches ["AA".data, "BB".data, "CC".data] ((2 : Nat) : Int) =
        .ok batches ∧
      batches.length =
        (["AA".data, "BB".data, "CC".data].length + 2 - 1) / 2 ∧
      batches.map Prod.fst = List.range batches.length ∧
      (batches.map Prod.snd).flatten = ["AA".data, "BB".data, "CC".data] ∧
      (∀ p ∈ batches.dropLast, p.2.length = 2) :=
  claim_c6_partitioning ["AA".data, "BB".data, "CC".data] 2 (by norm_num)

/-! ## Claim C8: skip accounting -/

lemma stepMonth_skippedSymbols (f : List Char → List Char → Bool)
    (sym mo : List Char) (st : WStats) :
    (stepMonth f sym mo st).skippedSymbols = st.skippedSymbols := by
  simp only [stepMonth]
  split <;> rfl

lemma foldMonths_skippedSymbols (f : List Char → List Char → Bool)
    (sym : List Char) :
    ∀ (months : List (List Char)) (st : WStats),
      ((months.foldl (fun s mo => stepMonth f sym mo s) st).skippedSymbols) =
        st.skippedSymbols := by
  intro months
  induction months with
  | nil => intro st; rfl
  | cons mo rest ih =>
      intro st
      rw [List.foldl_cons, ih, stepMonth_skippedSymbols]

lemma stepSymbol_of_skip (f : List Char → List Char → Bool)
    (s me : List Char) (st : WStats) (row : URow)
    (h : skipCond me row = true) :
    stepSymbol f s me st row =
      { st with skippedSymbols := st.skippedSymbols + 1 } := by
  unfold skipCond at h
  by_cases hv : is_valid_year_month (stripWs row.start_date) = true
  · rw [hv] at h
    simp only [Bool.not_true, Bool.false_or] at h
    simp [stepSymbol, hv, h]
  · have hv' := Bool.eq_false_iff.mpr hv
    simp [stepSymbol, hv']

lemma stepSymbol_skippedSymbols (f : List Char → List Char → Bool)
    (s me : List Char) (st : WStats) (row : URow) :
    (stepSymbol f s me st row).skippedSymbols =
      st.skippedSymbols + (if skipCond me row then 1 else 0) := by
  by_cases h : skipCond me row = true
  · rw [stepSymbol_of_skip f s me st row h, h]
    rfl
  · have h' := Bool.eq_false_iff.mpr h
    unfold skipCond at h'
    have hv : is_valid_year_month (stripWs row.start_date) = true := by
      by_contra hc
      have := Bool.eq_false_iff.mpr hc
      rw [this] at h'
      simp at h'
    rw [hv] at h'
    simp only [Bool.not_true, Bool.false_or] at h'
    rw [(show skipCond me row = false from Bool.eq_false_iff.mpr h)]
    simp only [if_false, Bool.false_eq_true, add_zero]
    simp [stepSymbol, hv, h', foldMonths_skippedSymbols]

lemma foldSymbols_skippedSymbols (f : List Char → List Char → Bool)
    (s me : List Char) :
    ∀ (df : List URow) (st : WStats),
      ((df.foldl (stepSymbol f s me) st).skippedSymbols) =
        st.skippedSymbols + df.countP (skipCond me) := by
  intro df
  induction df with
  | nil => intro st; simp
  | cons r rest ih =>
      intro st
      rw [List.foldl_cons, ih, stepSymbol_skippedSymbols, List.countP_cons]
      by_cases h : skipCond me r = true
      · rw [h]
        simp
        omega
      · rw [Bool.eq_false_iff.mpr h]
        simp

/-- C8: a universe row whose stripped start_date is invalid or compares
above the clamped effective end is skipped: the per-symbol step only
increments the skipped counter (in particular it issues no fetch and
leaves every request counter and the failure set untouched) and the run
continues; at the end, skipped_symbols equals the number of processed
rows satisfying the skip condition and processed_symbols equals
total_symbols minus skipped_symbols. -/
theorem claim_c8_skipped :
    ∀ (rows : List URow) (startYM endYM today : List Char)
      (subset : Option (List (List Char))) (limit : Option Nat)
      (fetchOk : List Char → List Char → Bool),
      (∀ (st : WStats) (row : URow),
        skipCond (pyMin endYM today) row = true →
        stepSymbol fetchOk startYM (pyMin endYM today) st row =
          { st with skippedSymbols := st.skippedSymbols + 1 }) ∧
      (∀ out, fetch_and_store rows startYM endYM today subset limit
          fetchOk = .ok out →
        out.skippedSymbols =
          (applyLimit (applySubset rows subset) limit).countP
            (skipCond (pyMin endYM today)) ∧
        out.processedSymbols = out.totalSymbols - out.skippedSymbols ∧
        out.totalSymbols =
          (applyLimit (applySubset rows subset) limit).length) := by
  intro rows startYM endYM today subset limit fetchOk
  constructor
  · intro st row h
    exact stepSymbol_of_skip fetchOk startYM (pyMin endYM today) st row h
  · intro out h
    unfold fetch_and_store at h
    split_ifs at h
    simp only [Except.ok.injEq] at h
    subst h
    refine ⟨?_, rfl, rfl⟩
    rw [foldSymbols_skippedSymbols]
    simp [initWStats]

/-- Witness for C8: a row with an unparseable start_date is skipped. -/
theorem claim_c8_skipped_witness :
    stepSymbol (fun _ _ => true) "2020-01".data
      (pyMin "2020-01".data "2020-02".data) initWStats
      ⟨"BAD".data, "oops".data⟩ =
      { initWStats with
        skippedSymbols := initWStats.skippedSymbols + 1 } :=
  (claim_c8_skipped [] "2020-01".data "2020-01".data "2020-02".data
    none none (fun _ _ => true)).1 initWStats
    ⟨"BAD".data, "oops".data⟩ (by decide)

/-! ## Claim C10: parsing and failure-set lemmas -/

lemma char_le_toNat {a b : Char} (h : a ≤ b) : a.toNat ≤ b.toNat := by
  rw [Char.le_def] at h
  exact h

lemma isDigitC_bounds {c : Char} (h : isDigitC c = true) :
    48 ≤ c.toNat ∧ c.toNat ≤ 57 := by
  unfold isDigitC at h
  rw [Bool.and_eq_true, decide_eq_true_eq, decide_eq_true_eq] at h
  exact ⟨char_le_toNat h.1, char_le_toNat h.2⟩

lemma monthOneDigit_bounds {c : Char} (h : monthOneDigit c = true) :
    49 ≤ c.toNat ∧ c.toNat ≤ 57 := by
  unfold monthOneDigit at h
  rw [Bool.and_eq_true, decide_eq_true_eq, decide_eq_true_eq] at h
  exact ⟨char_le_toNat h.1, char_le_toNat h.2⟩

lemma monthTwoDigits_bounds {c1 c2 : Char} (h : monthTwoDigits c1 c2 = true) :
    (c1.toNat = 49 ∧ 48 ≤ c2.toNat ∧ c2.toNat ≤ 50) ∨
    (c1.toNat = 48 ∧ 49 ≤ c2.toNat ∧ c2.toNat ≤ 57) := by
  unfold monthTwoDigits at h
  rw [Bool.or_eq_true] at h
  rcases h with h | h <;>
    rw [Bool.and_eq_true, Bool.and_eq_true, beq_iff_eq, decide_eq_true_eq,
      decide_eq_true_eq] at h
  · exact Or.inl ⟨by rw [h.1]; rfl, char_le_toNat h.2.1, char_le_toNat h.2.2⟩
  · exact Or.inr ⟨by rw [h.1]; rfl, char_le_toNat h.2.1, char_le_toNat h.2.2⟩

lemma notSpace_of_toNat_ge {c : Char} (h : 48 ≤ c.toNat) :
    isPySpace c = false := by
  unfold isPySpace
  have e : ∀ d : Char, d.toNat < 48 → (c == d) = false := by
    intro d hd
    rw [beq_eq_false_iff_ne]
    intro hc
    rw [hc] at h
    omega
  rw [e ' ' (by decide), e '\t' (by decide), e '\n' (by decide),
    e '\r' (by decide), e '\x0b' (by decide), e '\x0c' (by decide)]
  rfl

lemma ne_dash_of_toNat_ge {c : Char} (h : 48 ≤ c.toNat) :
    (c == '-') = false := by
  rw [beq_eq_false_iff_ne]
  intro hc
  rw [hc] at h
  exact absurd h (by decide)

lemma space_ne_dash {c : Char} (h : isPySpace c = true) :
    (c == '-') = false := by
  rw [beq_eq_false_iff_ne]
  intro hc
  rw [hc] at h
  exact absurd h (by decide)

lemma dropWhile_append_all {w x : List Char}
    (hw : ∀ c ∈ w, isPySpace c = true) :
    (w ++ x).dropWhile isPySpace = x.dropWhile isPySpace := by
  induction w with
  | nil => rfl
  | cons a t ih =>
      rw [List.cons_append,
        List.dropWhile_cons_of_pos (by simp [hw a (by simp)])]
      exact ih fun c hc => hw c (by simp [hc])

lemma dropWhile_append_of_ne_nil {x w : List Char}
    (hx : x.dropWhile isPySpace ≠ []) :
    (x ++ w).dropWhile isPySpace = x.dropWhile isPySpace ++ w := by
  induction x with
  | nil => exact absurd rfl hx
  | cons a t ih =>
      by_cases ha : isPySpace a = true
      · rw [List.dropWhile_cons_of_pos (by simp [ha])] at hx
        rw [List.cons_append, List.dropWhile_cons_of_pos (by simp [ha]),
          List.dropWhile_cons_of_pos (by simp [ha])]
        exact ih hx
      · rw [List.cons_append, List.dropWhile_cons_of_neg ha,
          List.dropWhile_cons_of_neg ha, List.cons_append]

lemma stripWs_left_pad {w x : List Char}
    (hw : ∀ c ∈ w, isPySpace c = true) :
    stripWs (w ++ x) = stripWs x := by
  unfold stripWs
  rw [dropWhile_append_all hw]

lemma dropWhile_all_space {w : List Char}
    (hw : ∀ c ∈ w, isPySpace c = true) :
    w.dropWhile isPySpace = [] := by
  induction w with
  | nil => rfl
  | cons a t ih =>
      rw [List.dropWhile_cons_of_pos (by simp [hw a (by simp)])]
      exact ih fun c hc => hw c (by simp [hc])

lemma stripWs_right_pad {x w : List Char}
    (hw : ∀ c ∈ w, isPySpace c = true) :
    stripWs (x ++ w) = stripWs x := by
  by_cases hx : x.dropWhile isPySpace = []
  · unfold stripWs
    rw [hx]
    have hxall : ∀ c ∈ x ++ w, isPySpace c = true := by
      intro c hc
      rcases List.mem_append.mp hc with hc | hc
      · exact List.dropWhile_eq_nil_iff.mp hx c hc
      · exact hw c hc
    rw [dropWhile_all_space hxall]
  · unfold stripWs
    rw [dropWhile_append_of_ne_nil hx, List.reverse_append,
      dropWhile_append_all fun c hc => hw c (List.mem_reverse.mp hc)]

lemma splitDashAux_no_dash : ∀ (l cur : List Char),
    (∀ c ∈ l, (c == '-') = false) →
    splitDashAux cur l = [cur.reverse ++ l] := by
  intro l
  induction l with
  | nil => intro cur _; simp [splitDashAux]
  | cons c t ih =>
      intro cur h
      simp only [splitDashAux, h c (by simp)]
      rw [if_neg (by simp)]
      rw [ih (c :: cur) fun x hx => h x (by simp [hx])]
      simp

lemma splitDashAux_to_dash : ∀ (pre cur q : List Char),
    (∀ c ∈ pre, (c == '-') = false) →
    splitDashAux cur (pre ++ '-' :: q) =
      (cur.reverse ++ pre) :: splitDashAux [] q := by
  intro pre
  induction pre with
  | nil =>
      intro cur q _
      simp [splitDashAux]
  | cons a t ih =>
      intro cur q h
      simp only [List.cons_append, splitDashAux, h a (by simp)]
      rw [if_neg (by simp)]
      simp only [List.append_eq]
      rw [ih (a :: cur) q fun x hx => h x (by simp [hx])]
      simp

lemma splitDash_pair (p q : List Char)
    (hp : ∀ c ∈ p, (c == '-') = false)
    (hq : ∀ c ∈ q, (c == '-') = false) :
    splitDash (p ++ '-' :: q) = [p, q] := by
  unfold splitDash
  rw [splitDashAux_to_dash p [] q hp, splitDashAux_no_dash q [] hq]
  simp

lemma stripWs_decomposition (l : List Char) :
    ∃ w1 w2, l = w1 ++ stripWs l ++ w2 ∧
      (∀ c ∈ w1, isPySpace c = true) ∧ (∀ c ∈ w2, isPySpace c = true) := by
  refine ⟨l.takeWhile isPySpace,
    ((l.dropWhile isPySpace).reverse.takeWhile isPySpace).reverse,
    ?_, ?_, ?_⟩
  · conv_lhs => rw [← List.takeWhile_append_dropWhile isPySpace l]
    rw [List.append_assoc]
    congr 1
    conv_lhs =>
      rw [← List.reverse_reverse (l.dropWhile isPySpace),
        ← List.takeWhile_append_dropWhile isPySpace
          (l.dropWhile isPySpace).reverse]
    rw [List.reverse_append]
    rfl
  · intro c hc
    exact List.mem_takeWhile_imp hc
  · intro c hc
    exact List.mem_takeWhile_imp (List.mem_reverse.mp hc)

lemma charsToNat_left_pad {w x : List Char}
    (hw : ∀ c ∈ w, isPySpace c = true) :
    charsToNat (w ++ x) = charsToNat x := by
  unfold charsToNat
  rw [stripWs_left_pad hw]

lemma charsToNat_right_pad {x w : List Char}
    (hw : ∀ c ∈ w, isPySpace c = true) :
    charsToNat (x ++ w) = charsToNat x := by
  unfold charsToNat
  rw [stripWs_right_pad hw]

lemma charsToNat_digits {x : List Char} (hx : ∀ c ∈ x, 48 ≤ c.toNat) :
    charsToNat x =
      x.foldl (fun a c => a * 10 + (c.toNat - 48)) 0 := by
  unfold charsToNat
  rw [stripWs_of_no_space x fun c hc => notSpace_of_toNat_ge (hx c hc)]

lemma charsToNat_year {a b c d : Char} (h : yearOkChars a b c d = true) :
    1 ≤ charsToNat [a, b, c, d] ∧ charsToNat [a, b, c, d] ≤ 9999 := by
  simp only [yearOkChars, Bool.and_eq_true, Bool.not_eq_true'] at h
  obtain ⟨⟨⟨⟨ha, hb⟩, hc⟩, hd⟩, hz⟩ := h
  have Ba := isDigitC_bounds ha
  have Bb := isDigitC_bounds hb
  have Bc := isDigitC_bounds hc
  have Bd := isDigitC_bounds hd
  have hval : charsToNat [a, b, c, d] =
      ((((0 * 10 + (a.toNat - 48)) * 10 + (b.toNat - 48)) * 10 +
        (c.toNat - 48)) * 10 + (d.toNat - 48)) := by
    rw [charsToNat_digits (by
      intro x hx
      simp only [List.mem_cons, List.not_mem_nil, or_false] at hx
      rcases hx with rfl | rfl | rfl | rfl
      · exact Ba.1
      · exact Bb.1
      · exact Bc.1
      · exact Bd.1)]
    rfl
  constructor
  · by_contra hcon
    have h0 : charsToNat [a, b, c, d] = 0 := by omega
    rw [hval] at h0
    have ea : a = '0' := Char.ext (UInt32.ext (show a.toNat = 48 by omega))
    have eb : b = '0' := Char.ext (UInt32.ext (show b.toNat = 48 by omega))
    have ec : c = '0' := Char.ext (UInt32.ext (show c.toNat = 48 by omega))
    have ed : d = '0' := Char.ext (UInt32.ext (show d.toNat = 48 by omega))
    rw [ea, eb, ec, ed] at hz
    simp at hz
  · rw [hval]
    omega

lemma ymParse_of_valid (l : List Char) (hv : is_valid_year_month l = true) :
    ∃ y m, ymParse l = (y, m) ∧ 1 ≤ y ∧ y ≤ 9999 ∧ 1 ≤ m ∧ m ≤ 12 := by
  unfold is_valid_year_month at hv
  obtain ⟨w1, w2, hl, hw1, hw2⟩ := stripWs_decomposition l
  rcases hcore : stripWs l with _ | ⟨a, _ | ⟨b, _ | ⟨c, _ | ⟨d, _ |
    ⟨hh, rest⟩⟩⟩⟩⟩
  · rw [hcore] at hv; simp [isValidYMChars] at hv
  · rw [hcore] at hv; simp [isValidYMChars] at hv
  · rw [hcore] at hv; simp [isValidYMChars] at hv
  · rw [hcore] at hv; simp [isValidYMChars] at hv
  · rw [hcore] at hv; simp [isValidYMChars] at hv
  rw [hcore] at hv
  rw [hcore] at hl
  simp only [isValidYMChars, Bool.and_eq_true, beq_iff_eq] at hv
  obtain ⟨⟨hY, hdash⟩, hrest⟩ := hv
  subst hdash
  have hYd : ∀ x ∈ [a, b, c, d], 48 ≤ x.toNat := by
    have h' := hY
    simp only [yearOkChars, Bool.and_eq_true, Bool.not_eq_true'] at h'
    obtain ⟨⟨⟨⟨ha, hb⟩, hc⟩, hd⟩, _⟩ := h'
    intro x hx
    simp only [List.mem_cons, List.not_mem_nil, or_false] at hx
    rcases hx with rfl | rfl | rfl | rfl
    · exact (isDigitC_bounds ha).1
    · exact (isDigitC_bounds hb).1
    · exact (isDigitC_bounds hc).1
    · exact (isDigitC_bounds hd).1
  have hYear := charsToNat_year hY
  rcases rest with _ | ⟨e, _ | ⟨f, rest2⟩⟩
  · simp [monthPartOk] at hrest
  · -- single-digit month
    have he := monthOneDigit_bounds (by
      simpa [monthPartOk] using hrest)
    have hsplit : splitDash (w1 ++ (a :: b :: c :: d :: '-' :: [e]) ++ w2) =
        [w1 ++ [a, b, c, d], e :: w2] := by
      have hassoc : w1 ++ (a :: b :: c :: d :: '-' :: [e]) ++ w2 =
          (w1 ++ [a, b, c, d]) ++ '-' :: (e :: w2) := by
        simp
      rw [hassoc]
      rw [splitDash_pair]
      · intro x hx
        rcases List.mem_append.mp hx with hx | hx
        · exact space_ne_dash (hw1 x hx)
        · exact ne_dash_of_toNat_ge (hYd x hx)
      · intro x hx
        rcases List.mem_cons.mp hx with rfl | hx
        · exact ne_dash_of_toNat_ge (by omega)
        · exact space_ne_dash (hw2 x hx)
    refine ⟨charsToNat [a, b, c, d], charsToNat [e], ?_, hYear.1, hYear.2,
      ?_, ?_⟩
    · rw [hl]
      unfold ymParse
      rw [hsplit]
      simp only
      rw [charsToNat_left_pad hw1,
        (show (e :: w2 : List Char) = [e] ++ w2 by rfl),
        charsToNat_right_pad hw2]
    · rw [charsToNat_digits (by
        intro x hx
        simp only [List.mem_cons, List.not_mem_nil, or_false] at hx
        subst hx
        omega)]
      simp only [List.foldl]
      omega
    · rw [charsToNat_digits (by
        intro x hx
        simp only [List.mem_cons, List.not_mem_nil, or_false] at hx
        subst hx
        omega)]
      simp only [List.foldl]
      omega
  · rcases rest2 with _ | ⟨g, t⟩
    · -- two-digit month
      have hef := monthTwoDigits_bounds (by
        simpa [monthPartOk] using hrest)
      have hefour : 48 ≤ e.toNat ∧ 48 ≤ f.toNat := by
        rcases hef with ⟨h1, h2, _⟩ | ⟨h1, h2, _⟩ <;> constructor <;> omega
      have hsplit : splitDash
          (w1 ++ (a :: b :: c :: d :: '-' :: [e, f]) ++ w2) =
          [w1 ++ [a, b, c, d], e :: f :: w2] := by
        have hassoc : w1 ++ (a :: b :: c :: d :: '-' :: [e, f]) ++ w2 =
            (w1 ++ [a, b, c, d]) ++ '-' :: (e :: f :: w2) := by
          simp
        rw [hassoc]
        rw [splitDash_pair]
        · intro x hx
          rcases List.mem_append.mp hx with hx | hx
          · exact space_ne_dash (hw1 x hx)
          · exact ne_dash_of_toNat_ge (hYd x hx)
        · intro x hx
          rcases List.mem_cons.mp hx with rfl | hx
          · exact ne_dash_of_toNat_ge hefour.1
          · rcases List.mem_cons.mp hx with rfl | hx
            · exact ne_dash_of_toNat_ge hefour.2
            · exact space_ne_dash (hw2 x hx)
      refine ⟨charsToNat [a, b, c, d], charsToNat [e, f], ?_, hYear.1,
        hYear.2, ?_, ?_⟩
      · rw [hl]
        unfold ymParse
        rw [hsplit]
        simp only
        rw [charsToNat_left_pad hw1,
          (show (e :: f :: w2 : List Char) = [e, f] ++ w2 by rfl),
          charsToNat_right_pad hw2]
      · rw [charsToNat_digits (by
          intro x hx
          simp only [List.mem_cons, List.not_mem_nil, or_false] at hx
          rcases hx with rfl | rfl
          · exact hefour.1
          · exact hefour.2)]
        simp only [List.foldl]
        rcases hef with ⟨h1, h2, h3⟩ | ⟨h1, h2, h3⟩ <;> omega
      · rw [charsToNat_digits (by
          intro x hx
          simp only [List.mem_cons, List.not_mem_nil, or_false] at hx
          rcases hx with rfl | rfl
          · exact hefour.1
          · exact hefour.2)]
        simp only [List.foldl]
        rcases hef with ⟨h1, h2, h3⟩ | ⟨h1, h2, h3⟩ <;> omega
    · simp [monthPartOk] at hrest

lemma monthRangeAux_mem : ∀ (fuel y m ey em : Nat), 1 ≤ m → m ≤ 12 →
    ∀ x ∈ monthRangeAux fuel y m ey em,
      ∃ y1 m1, x = ymChars y1 m1 ∧ 1 ≤ m1 ∧ m1 ≤ 12 ∧ y1 ≤ ey ∧
        12 * y + m ≤ 12 * y1 + m1 := by
  intro fuel
  induction fuel with
  | zero =>
      intro y m ey em _ _ x hx
      simp [monthRangeAux] at hx
  | succ fuel ih =>
      intro y m ey em hm1 hm2 x hx
      simp only [monthRangeAux] at hx
      by_cases hg : y < ey ∨ (y = ey ∧ m ≤ em)
      · rw [if_pos hg] at hx
        rcases List.mem_cons.mp hx with hx | hx
        · exact ⟨y, m, hx, hm1, hm2, by omega, by omega⟩
        · by_cases h12 : m + 1 > 12
          · rw [if_pos h12] at hx
            obtain ⟨y1, m1, e1, b1, b2, b3, b4⟩ :=
              ih (y + 1) 1 ey em (by norm_num) (by norm_num) x hx
            exact ⟨y1, m1, e1, b1, b2, b3, by omega⟩
          · rw [if_neg h12] at hx
            obtain ⟨y1, m1, e1, b1, b2, b3, b4⟩ :=
              ih y (m + 1) ey em (by omega) (by omega) x hx
            exact ⟨y1, m1, e1, b1, b2, b3, by omega⟩
      · rw [if_neg hg] at hx
        simp at hx

lemma monthRangeAux_nodup : ∀ (fuel y m ey em : Nat), 1 ≤ m → m ≤ 12 →
    ey ≤ 9999 → (monthRangeAux fuel y m ey em).Nodup := by
  intro fuel
  induction fuel with
  | zero =>
      intro y m ey em _ _ _
      simp [monthRangeAux]
  | succ fuel ih =>
      intro y m ey em hm1 hm2 hey
      simp only [monthRangeAux]
      by_cases hg : y < ey ∨ (y = ey ∧ m ≤ em)
      · rw [if_pos hg]
        have hy : y ≤ ey := by omega
        by_cases h12 : m + 1 > 12
        · rw [if_pos h12, List.nodup_cons]
          constructor
          · intro hmem
            obtain ⟨y1, m1, e1, b1, b2, b3, b4⟩ :=
              monthRangeAux_mem fuel (y + 1) 1 ey em (by norm_num)
                (by norm_num) _ hmem
            obtain ⟨hyy, hmm⟩ := ymChars_inj y m y1 m1 (by omega) (by omega)
              (by omega) (by omega) e1
            omega
          · exact ih (y + 1) 1 ey em (by norm_num) (by norm_num) hey
        · rw [if_neg h12, List.nodup_cons]
          constructor
          · intro hmem
            obtain ⟨y1, m1, e1, b1, b2, b3, b4⟩ :=
              monthRangeAux_mem fuel y (m + 1) ey em (by omega) (by omega)
                _ hmem
            obtain ⟨hyy, hmm⟩ := ymChars_inj y m y1 m1 (by omega) (by omega)
              (by omega) (by omega) e1
            omega
          · exact ih y (m + 1) ey em (by omega) (by omega) hey
      · rw [if_neg hg]
        exact List.nodup_nil

lemma month_range_nodup (a b : List Char)
    (hva : is_valid_year_month a = true)
    (hvb : is_valid_year_month b = true) :
    (month_range a b).Nodup := by
  obtain ⟨ya, ma, hpa, _, _, ha3, ha4⟩ := ymParse_of_valid a hva
  obtain ⟨yb, mb, hpb, _, hb2, _, _⟩ := ymParse_of_valid b hvb
  simp only [month_range, hpa, hpb]
  exact monthRangeAux_nodup _ ya ma yb mb ha3 ha4 hb2

lemma pyMax_eq_or (a b : List Char) : pyMax a b = a ∨ pyMax a b = b := by
  unfold pyMax
  split
  · exact Or.inr rfl
  · exact Or.inl rfl

lemma pyMin_eq_or (a b : List Char) : pyMin a b = a ∨ pyMin a b = b := by
  unfold pyMin
  split
  · exact Or.inr rfl
  · exact Or.inl rfl

lemma stepMonth_failed_subset (f : List Char → List Char → Bool)
    (sym mo : List Char) (st : WStats) :
    ∀ p ∈ (stepMonth f sym mo st).failedPairs,
      p ∈ st.failedPairs ∨ p = (sym, mo) := by
  intro p hp
  cases hf : f sym mo
  · simp only [stepMonth, hf, Bool.not_false, if_true] at hp
    rcases Finset.mem_insert.mp hp with h | h
    · exact Or.inr h
    · exact Or.inl h
  · simp only [stepMonth, hf, Bool.not_true, Bool.false_eq_true,
      if_false] at hp
    by_cases hm : (sym, mo) ∈ st.failedPairs
    · rw [if_pos hm] at hp
      exact Or.inl (Finset.mem_of_mem_erase hp)
    · rw [if_neg hm] at hp
      exact Or.inl hp

lemma stepMonth_card (f : List Char → List Char → Bool)
    (sym mo : List Char) (st : WStats)
    (hmem : (sym, mo) ∉ st.failedPairs)
    (hinv : st.failedPairs.card = st.errorRequests) :
    (stepMonth f sym mo st).failedPairs.card =
      (stepMonth f sym mo st).errorRequests := by
  cases hf : f sym mo
  · simp only [stepMonth, hf, Bool.not_false, if_true]
    rw [Finset.card_insert_of_not_mem hmem, hinv]
  · simp only [stepMonth, hf, Bool.not_true, Bool.false_eq_true, if_false,
      if_neg hmem]
    exact hinv

lemma foldMonths_inv (f : List Char → List Char → Bool) (sym : List Char) :
    ∀ (months : List (List Char)) (st : WStats),
      months.Nodup →
      (∀ mo ∈ months, (sym, mo) ∉ st.failedPairs) →
      st.failedPairs.card = st.errorRequests →
      ((months.foldl (fun x mo => stepMonth f sym mo x) st).failedPairs.card
          = (months.foldl (fun x mo => stepMonth f sym mo x)
              st).errorRequests) ∧
      (∀ p ∈ (months.foldl (fun x mo => stepMonth f sym mo x)
          st).failedPairs, p ∈ st.failedPairs ∨ p.1 = sym) := by
  intro months
  induction months with
  | nil =>
      intro st _ _ hinv
      exact ⟨hinv, fun p hp => Or.inl hp⟩
  | cons mo rest ih =>
      intro st hnd hfresh hinv
      rw [List.foldl_cons]
      obtain ⟨hnd1, hnd2⟩ := List.nodup_cons.mp hnd
      have hmem : (sym, mo) ∉ st.failedPairs := hfresh mo (by simp)
      have hfresh' : ∀ mo' ∈ rest,
          (sym, mo') ∉ (stepMonth f sym mo st).failedPairs := by
        intro mo' hmo' hp
        rcases stepMonth_failed_subset f sym mo st _ hp with h | h
        · exact hfresh mo' (by simp [hmo']) h
        · simp only [Prod.mk.injEq, true_and] at h
          exact hnd1 (h ▸ hmo')
      obtain ⟨hc, hs2⟩ := ih (stepMonth f sym mo st) hnd2 hfresh'
        (stepMonth_card f sym mo st hmem hinv)
      refine ⟨hc, ?_⟩
      intro p hp
      rcases hs2 p hp with h | h
      · rcases stepMonth_failed_subset f sym mo st _ h with h2 | h2
        · exact Or.inl h2
        · right
          rw [h2]
      · exact Or.inr h

lemma foldSymbols_inv (f : List Char → List Char → Bool)
    (s me : List Char)
    (hvs : is_valid_year_month s = true)
    (hvm : is_valid_year_month me = true) :
    ∀ (df : List URow) (st : WStats) (done : List (List Char)),
      (df.map URow.symbol).Nodup →
      (∀ r ∈ df, r.symbol ∉ done) →
      st.failedPairs.card = st.errorRequests →
      (∀ p ∈ st.failedPairs, p.1 ∈ done) →
      (df.foldl (stepSymbol f s me) st).failedPairs.card =
        (df.foldl (stepSymbol f s me) st).errorRequests := by
  intro df
  induction df with
  | nil =>
      intro st done _ _ hinv _
      exact hinv
  | cons r rest ih =>
      intro st done hnd hdone hinv hsub
      rw [List.map_cons, List.nodup_cons] at hnd
      obtain ⟨hnd1, hnd2⟩ := hnd
      have hdone' : ∀ r' ∈ rest, r'.symbol ∉ r.symbol :: done := by
        intro r' hr' hmem
        rcases List.mem_cons.mp hmem with he | he
        · exact hnd1 (he ▸ List.mem_map_of_mem URow.symbol hr')
        · exact hdone r' (List.mem_cons_of_mem _ hr') he
      rw [List.foldl_cons]
      by_cases hskip : skipCond me r = true
      · rw [stepSymbol_of_skip f s me st r hskip]
        exact ih _ (r.symbol :: done) hnd2 hdone' hinv
          (fun p hp => List.mem_cons_of_mem _ (hsub p hp))
      · have hskipf := Bool.eq_false_iff.mpr hskip
        unfold skipCond at hskipf
        rw [Bool.or_eq_false_iff] at hskipf
        obtain ⟨hv0, hlt⟩ := hskipf
        have hv : is_valid_year_month (stripWs r.start_date) = true := by
          revert hv0
          cases is_valid_year_month (stripWs r.start_date) <;> simp
        have hstep : stepSymbol f s me st r =
            (month_range (pyMax s (stripWs r.start_date)) me).foldl
              (fun x mo => stepMonth f r.symbol mo x) st := by
          simp [stepSymbol, hv, hlt]
        rw [hstep]
        have heffv : is_valid_year_month
            (pyMax s (stripWs r.start_date)) = true := by
          rcases pyMax_eq_or s (stripWs r.start_date) with h | h <;> rw [h]
          · exact hvs
          · exact hv
        have hmonths := month_range_nodup _ _ heffv hvm
        have hfresh : ∀ mo ∈ month_range (pyMax s (stripWs r.start_date)) me,
            (r.symbol, mo) ∉ st.failedPairs := by
          intro mo _ hmem
          exact hdone r (by simp) (hsub _ hmem)
        obtain ⟨hc, hs2⟩ := foldMonths_inv f r.symbol _ st hmonths hfresh hinv
        refine ih _ (r.symbol :: done) hnd2 hdone' hc ?_
        intro p hp
        rcases hs2 p hp with h | h
        · exact List.mem_cons_of_mem _ (hsub p h)
        · rw [h]
          exact List.mem_cons_self _ _

/-- C10: in a single worker run over a universe whose symbol values are
pairwise distinct, the per-symbol month sequence is duplicate-free (so
each (symbol, month) pair is fetched at most once and the success-path
removal from the failure set never fires), and the final
unresolved_error_requests count equals error_requests exactly.  The
current-UTC-month string is canonical by construction
(strftime %Y-%m), which the validity hypothesis on today records. -/
theorem claim_c10_unresolved_eq_errors :
    ∀ (rows : List URow) (startYM endYM today : List Char)
      (subset : Option (List (List Char))) (limit : Option Nat)
      (fetchOk : List Char → List Char → Bool) (out : WorkerOutput),
      (rows.map URow.symbol).Nodup →
      is_valid_year_month today = true →
      fetch_and_store rows startYM endYM today subset limit fetchOk =
        .ok out →
      (∀ a b : List Char, is_valid_year_month a = true →
        is_valid_year_month b = true → (month_range a b).Nodup) ∧
      out.unresolvedErrorRequests = out.errorRequests := by
  intro rows startYM endYM today subset limit fetchOk out hnodup htoday h
  refine ⟨fun a b hva hvb => month_range_nodup a b hva hvb, ?_⟩
  unfold fetch_and_store at h
  split_ifs at h with h1 h2 h3
  simp only [Bool.not_eq_true', Bool.not_eq_false] at h1 h2
  simp only [Except.ok.injEq] at h
  subst h
  have hdfsub : List.Sublist (applyLimit (applySubset rows subset) limit)
      rows := by
    have hs1 : List.Sublist (applySubset rows subset) rows := by
      cases subset with
      | none => exact List.Sublist.refl _
      | some ss => exact List.filter_sublist rows
    have hs2 : List.Sublist (applyLimit (applySubset rows subset) limit)
        (applySubset rows subset) := by
      cases limit with
      | none => exact List.Sublist.refl _
      | some k => exact List.take_sublist k _
    exact hs2.trans hs1
  have hdfnd : ((applyLimit (applySubset rows subset) limit).map
      URow.symbol).Nodup := hnodup.sublist (hdfsub.map URow.symbol)
  have hme : is_valid_year_month (pyMin endYM today) = true := by
    rcases pyMin_eq_or endYM today with he | he <;> rw [he]
    · exact h2
    · exact htoday
  exact foldSymbols_inv fetchOk startYM (pyMin endYM today) h1 hme
    (applyLimit (applySubset rows subset) limit) initWStats [] hdfnd
    (fun r _ hmem => by simp at hmem) rfl
    (fun p hp => absurd hp (by simp [initWStats]))

/-- Witness for C10: a two-symbol run where one month errors; the
unresolved count equals the error count. -/
theorem claim_c10_unresolved_eq_errors_witness :
    (∀ a b : List Char, is_valid_year_month a = true →
      is_valid_year_month b = true → (month_range a b).Nodup) ∧
    ({ totalSymbols := 2, processedSymbols := 2, skippedSymbols := 0,
       totalRequests := 4, successRequests := 3, errorRequests := 1,
       unresolvedErrorRequests := 1,
       symbolsWithErrors := {"AAA".data} } :
        WorkerOutput).unresolvedErrorRequests =
      ({ totalSymbols := 2, processedSymbols := 2, skippedSymbols := 0,
         totalRequests := 4, successRequests := 3, errorRequests := 1,
         unresolvedErrorRequests := 1,
         symbolsWithErrors := {"AAA".data} } :
          WorkerOutput).errorRequests :=
  claim_c10_unresolved_eq_errors
    [⟨"AAA".data, "2020-01".data⟩, ⟨"BBB".data, "2019-06".data⟩]
    "2020-01".data "2020-02".data "2025-01".data none none
    (fun sym mo => !(sym == "AAA".data && mo == "2020-01".data))
    { totalSymbols := 2, processedSymbols := 2, skippedSymbols := 0,
      totalRequests := 4, successRequests := 3, errorRequests := 1,
      unresolvedErrorRequests := 1,
      symbolsWithErrors := {"AAA".data} }
    (by decide) (by decide) (by rfl)

example : is_valid_year_month "2025-12".data = true := by decide
example : is_valid_year_month "2025-1".data = true := by decide
example : is_valid_year_month "2025-13".data = false := by decide
example : is_valid_year_month "0000-01".data = false := by decide
example : is_valid_year_month " 2025-12 ".data = true := by decide
example : is_valid_year_month "999-01".data = false := by decide
example : isCanonicalYMChars "2025-1".data = false := by decide
example : pyStrNat 2024 = "2024".data := by decide
example : pyStrNat 999 = "999".data := by decide
example : pyStrLt "1990-05".data "2024-01".data = true := by decide

end MarketPulse
